import Mathlib

/-!
Verification development for the mtracker tracker/bot/task pipeline.

The definitions below are a shallow embedding of the Python sources:
`src/model.py` (status codes, database rows and the transactional update
helpers), `src/utils.py` (`config_dhash`), `src/bot.py` (`BotResult` flags and
`BotModule.execute_task`), `src/track.py` (`execute`), `src/reporter.py`
(`report_results`), `src/scheduler.py` (`run_bot_task`) and `src/server.py`
(`track_config`).  Database tables are embedded as Lists of row structures and
each SQL statement is translated to the corresponding pure list transformation.
Timestamps are embedded as integers counting seconds; SHA-256 is kept abstract
as a function parameter `h : String → String` (`config_dhash` uses nothing
beyond the fact that it is a function).
-/

namespace MT

/-- JSON-like values.  A `scalar` holds the image of the Python value under
`str(...)` (for example the integer `1` is embedded as `scalar "1"`); Python
dicts are embedded as association lists, which cannot have duplicate keys. -/
inductive JsonValue where
  | scalar (s : String)
  | list (xs : List JsonValue)
  | obj (kvs : List (String × JsonValue))

mutual
/-- Boolean equality of embedded JSON values. -/
def JsonValue.beq : JsonValue → JsonValue → Bool
  | .scalar a, .scalar b => a == b
  | .list xs, .list ys => JsonValue.beqList xs ys
  | .obj a, .obj b => JsonValue.beqKV a b
  | _, _ => false

def JsonValue.beqList : List JsonValue → List JsonValue → Bool
  | [], [] => true
  | x :: xs, y :: ys => JsonValue.beq x y && JsonValue.beqList xs ys
  | _, _ => false

def JsonValue.beqKV : List (String × JsonValue) → List (String × JsonValue) → Bool
  | [], [] => true
  | (k, v) :: xs, (k2, v2) :: ys => k == k2 && JsonValue.beq v v2 && JsonValue.beqKV xs ys
  | _, _ => false
end

instance : BEq JsonValue := ⟨JsonValue.beq⟩

/-- Key lookup in an embedded Python dict (association list, unique keys). -/
def lookupKV (kvs : List (String × JsonValue)) (k : String) : Option JsonValue :=
  match kvs.find? (fun p => p.1 == k) with
  | some p => some p.2
  | none => none

/-- Insertion sort step for an arbitrary boolean comparison. -/
def insertLe {α : Type} (le : α → α → Bool) (x : α) : List α → List α
  | [] => [x]
  | y :: ys => if le x y then x :: y :: ys else y :: insertLe le x ys

/-- Insertion sort; embeds Python's `sorted(...)` (total order, equal keys are
equal values wherever it is used). -/
def isort {α : Type} (le : α → α → Bool) : List α → List α
  | [] => []
  | x :: xs => insertLe le x (isort le xs)

/-- Lexicographic code-point comparison of char lists: the order Python uses
to compare strings. -/
def listLeB : List Char → List Char → Bool
  | [], _ => true
  | _ :: _, [] => false
  | a :: as, b :: bs =>
      if a.toNat < b.toNat then true
      else if b.toNat < a.toNat then false
      else listLeB as bs

/-- Python string comparison `a <= b` (code-point lexicographic). -/
def strLeB (a b : String) : Bool := listLeB a.data b.data

/-- Python `sorted` over a list of strings (lexicographic code-point order). -/
def sortStr (l : List String) : List String := isort strLeB l

/-- Python `sorted(obj.keys())` combined with the `obj[o]` lookups: sorting an
association list of (key, value-hash) pairs by key. -/
def sortPairsByKey (l : List (String × String)) : List (String × String) :=
  isort (fun a b => strLeB a.1 b.1) l

/-- Python `repr` of a string as it appears inside `str(some_list)`; the
surrounding single quotes are Char 39.  (Escaping inside hash strings never
occurs: they are hex digests.) -/
def pyQuote (s : String) : String :=
  String.singleton (Char.ofNat 39) ++ s ++ String.singleton (Char.ofNat 39)

/-- Python `str(...)` of a list of strings: "['a', 'b']". -/
def pyStrList (l : List String) : String :=
  "[" ++ String.intercalate ", " (l.map pyQuote) ++ "]"

mutual
/-- Embedding of `utils.config_dhash` (src/utils.py:25-31), parameterized by
the abstract digest function `h` (sha256-hexdigest of the utf-8 string form).
A list hashes the Python `str` of the sorted list of member hashes; a dict
hashes the list of `[key, hash(value)]` pairs (each itself a two-string list,
hence hashed as the sorted pair of string hashes); sorting the dict keys is
`sortPairsByKey` on the (key, value-hash) pairs, which for unique keys agrees
with `for o in sorted(obj.keys())` plus `obj[o]`. -/
def config_dhash (h : String → String) : JsonValue → String
  | .scalar s => h s
  | .list xs => h (pyStrList (sortStr (config_dhashList h xs)))
  | .obj kvs =>
      let entries := sortPairsByKey (config_dhashKV h kvs)
      h (pyStrList (sortStr (entries.map (fun kv => h (pyStrList (sortStr [h kv.1, h kv.2]))))))

def config_dhashList (h : String → String) : List JsonValue → List String
  | [] => []
  | x :: xs => config_dhash h x :: config_dhashList h xs

def config_dhashKV (h : String → String) : List (String × JsonValue) → List (String × String)
  | [] => []
  | (k, v) :: kvs => (k, config_dhash h v) :: config_dhashKV h kvs
end

mutual
/-- Embedding of `json.dumps` as used for bot state serialization; scalar
rendering is the stored string form.  The exact text never matters to the
claims, only that it is a function of the value. -/
def jsonDumps : JsonValue → String
  | .scalar s => s
  | .list xs => "[" ++ String.intercalate ", " (jsonDumpsList xs) ++ "]"
  | .obj kvs => "\x7b" ++ String.intercalate ", " (jsonDumpsKV kvs) ++ "\x7d"

def jsonDumpsList : List JsonValue → List String
  | [] => []
  | x :: xs => jsonDumps x :: jsonDumpsList xs

def jsonDumpsKV : List (String × JsonValue) → List String
  | [] => []
  | (k, v) :: kvs => (k ++ ": " ++ jsonDumps v) :: jsonDumpsKV kvs
end

/-- Nested permutation equivalence on JSON values, with recursion fuel `n`:
two values are related when they are equal scalars, or lists whose members can
be put in pointwise relation and then permuted, or objects likewise with keys
kept attached to their values. -/
def JPermN : Nat → JsonValue → JsonValue → Prop
  | 0, _, _ => False
  | _ + 1, .scalar a, .scalar b => a = b
  | n + 1, .list xs, .list ys => ∃ zs, zs.Perm ys ∧ List.Forall₂ (JPermN n) xs zs
  | n + 1, .obj kvs, .obj kvs2 =>
      ∃ zs, zs.Perm kvs2 ∧ List.Forall₂ (fun a b => a.1 = b.1 ∧ JPermN n a.2 b.2) kvs zs
  | _ + 1, _, _ => False

/-- Two JSON values are permutation-equivalent when related at some fuel. -/
def JPerm (v w : JsonValue) : Prop := ∃ n, JPermN n v w

/-- Embedding of `model.Status` (src/model.py:24-34). -/
inductive Status where
  | crashed
  | inprogress
  | working
  | failing
  | new
  | archived
deriving DecidableEq

/-- Embedding of `model.STATUS_DB` (src/model.py:40-47): the lowercase string
stored in the database for each status. -/
def STATUS_DB : Status → String
  | .crashed => "crashed"
  | .inprogress => "inprogress"
  | .working => "working"
  | .failing => "failing"
  | .new => "new"
  | .archived => "archived"

/-- Python `str()` of a `Status` member, as interpolated into the
`"Unexpected bot status {status}"` message. -/
def pyStatusStr : Status → String
  | .crashed => "Status.CRASHED"
  | .inprogress => "Status.INPROGRESS"
  | .working => "Status.WORKING"
  | .failing => "Status.FAILING"
  | .new => "Status.NEW"
  | .archived => "Status.ARCHIVED"

/-- Modelled from the spec: the SQL comparison order of the `status` columns.
The database schema (the migrations under `db/`, which are not part of the
sources given here) determines how `MIN(b.status)` compares the stored
lowercase strings; spec section 6 states that statuses are stored as the
lowercase strings and that "the canonical enum-order used for min-aggregation
is the order given in section 3", i.e. CRASHED < INPROGRESS < WORKING <
FAILING < NEW < ARCHIVED.  Strings outside the six status values are ranked
after all of them. -/
def statusRank (s : String) : Nat :=
  if s = "crashed" then 0
  else if s = "inprogress" then 1
  else if s = "working" then 2
  else if s = "failing" then 3
  else if s = "new" then 4
  else if s = "archived" then 5
  else 6

/-- SQL `MIN` over a status column under the order of `statusRank`: `none` for
an empty group, otherwise an element of least rank. -/
def sqlMinStatus : List String → Option String
  | [] => none
  | s :: rest => some (rest.foldl (fun acc x => if statusRank x < statusRank acc then x else acc) s)

/-- Row of the `bots` table (src/model.py:365-397). -/
structure BotRow where
  bot_id : Nat
  tracker_id : Nat
  status : String
  state : String
  failing_spree : Nat
  next_execution : Int
  country : String
  last_error : String
  family : String
deriving DecidableEq

/-- Row of the `trackers` table (src/model.py:650-670); `status` is NULL on
creation, hence an `Option`.  `config` holds the stored JSON text, embedded
structurally. -/
structure TrackerRow where
  tracker_id : Nat
  config_hash : String
  config : JsonValue
  family : String
  status : Option String

/-- Row of the `tasks` table (src/model.py:305-326). -/
structure TaskRow where
  task_id : Nat
  bot_id : Nat
  status : String
  report_time : Int
deriving DecidableEq

/-- Row of the `proxies` table (src/model.py:93-116). -/
structure ProxyRow where
  proxy_id : Nat
  host : String
  port : Nat
  country : String
  username : Option String
  password : Option String
deriving DecidableEq

/-- Row of the `results` table (src/model.py:754-771). -/
structure ResultRow where
  task_id : Nat
  result_type : String
  name : String
  sha256 : String
  tags : List String
deriving DecidableEq

/-- The relational database state. -/
structure DB where
  bots : List BotRow
  trackers : List TrackerRow
  tasks : List TaskRow
  proxies : List ProxyRow
  results : List ResultRow

/-- Statuses of all bots with the given tracker id, in table order. -/
def botStatusesOf (bots : List BotRow) (tid : Nat) : List String :=
  (bots.filter (fun b => b.tracker_id == tid)).map (·.status)

/-- Embedding of `Tracker.update_statuses` (src/model.py:723-743): every
tracker in `tids` gets `status := MIN(status of its bots)` (NULL when it has
no bots), computed from the current `bots` table. -/
def Tracker.update_statuses (db : DB) (tids : List Nat) : DB :=
  { db with trackers := db.trackers.map (fun t =>
      if t.tracker_id ∈ tids then
        { t with status := sqlMinStatus (botStatusesOf db.bots t.tracker_id) }
      else t) }

/-- Embedding of `Bot.set_statuses` (src/model.py:461-474): set the status of
every bot in `bot_ids`, then recompute the status of each distinct tracker
owning one of them. -/
def Bot.set_statuses (db : DB) (bot_ids : List Nat) (st : Status) : DB :=
  let db1 := { db with bots := db.bots.map (fun b =>
      if b.bot_id ∈ bot_ids then { b with status := STATUS_DB st } else b) }
  let tids := ((db1.bots.filter (fun b => decide (b.bot_id ∈ bot_ids))).map (·.tracker_id)).dedup
  Tracker.update_statuses db1 tids

/-- Embedding of `Bot.set_crashed` (src/model.py:487-497).  `none` models the
`fetchone()` failure when no row matches `bot_id`. -/
def Bot.set_crashed (db : DB) (bot_id : Nat) (reason : String) : Option DB :=
  match db.bots.find? (fun b => b.bot_id == bot_id) with
  | none => none
  | some b0 =>
      let db1 := { db with bots := db.bots.map (fun b =>
          if b.bot_id = bot_id then
            { b with status := STATUS_DB Status.crashed, last_error := reason }
          else b) }
      some (Tracker.update_statuses db1 [b0.tracker_id])

/-- Embedding of `Bot.set_worked` (src/model.py:499-509). -/
def Bot.set_worked (db : DB) (bot_id : Nat) : Option DB :=
  match db.bots.find? (fun b => b.bot_id == bot_id) with
  | none => none
  | some b0 =>
      let db1 := { db with bots := db.bots.map (fun b =>
          if b.bot_id = bot_id then
            { b with status := STATUS_DB Status.working, last_error := "", failing_spree := 0 }
          else b) }
      some (Tracker.update_statuses db1 [b0.tracker_id])

/-- Embedding of `Bot.set_failed` (src/model.py:511-529): read the current
`failing_spree`, increment it, archive instead when it exceeds
`max_failing_spree`, and store the incremented spree in both cases. -/
def Bot.set_failed (max_failing_spree : Nat) (db : DB) (bot_id : Nat) (reason : String) :
    Option DB :=
  match db.bots.find? (fun b => b.bot_id == bot_id) with
  | none => none
  | some b0 =>
      let spree := b0.failing_spree + 1
      let st := if spree > max_failing_spree then Status.archived else Status.failing
      let db1 := { db with bots := db.bots.map (fun b =>
          if b.bot_id = bot_id then
            { b with status := STATUS_DB st, last_error := reason, failing_spree := spree }
          else b) }
      some (Tracker.update_statuses db1 [b0.tracker_id])

/-- Embedding of `Bot.set_archived` (src/model.py:531-541). -/
def Bot.set_archived (db : DB) (bot_id : Nat) : Option DB :=
  match db.bots.find? (fun b => b.bot_id == bot_id) with
  | none => none
  | some b0 =>
      let db1 := { db with bots := db.bots.map (fun b =>
          if b.bot_id = bot_id then
            { b with status := STATUS_DB Status.archived, last_error := "", failing_spree := 0 }
          else b) }
      some (Tracker.update_statuses db1 [b0.tracker_id])

/-- The final UPDATE of `Bot.update_after_run` (src/model.py:436-442):
`state=COALESCE(%s, state), next_execution=%s`. -/
def botsWriteStateNext (db : DB) (bot_id : Nat) (state : Option String) (ne : Int) : DB :=
  { db with bots := db.bots.map (fun b =>
      if b.bot_id = bot_id then
        { b with state := state.getD b.state, next_execution := ne }
      else b) }

/-- Embedding of `Bot.update_after_run` (src/model.py:402-442): dispatch on
the status, then write state and next_execution; `CRASHED` returns before the
final UPDATE; any other unexpected status raises. -/
def Bot.update_after_run (max_failing_spree : Nat) (db : DB) (bot_id : Nat)
    (state : Option String) (status : Status) (next_execution : Int)
    (last_error : Option String) : Except String DB :=
  match status with
  | .working =>
      match Bot.set_worked db bot_id with
      | some db1 => .ok (botsWriteStateNext db1 bot_id state next_execution)
      | none => .error "fetchone returned no row"
  | .failing =>
      let reason := match last_error with
        | some s => if s = "" then "Failed to get config" else s
        | none => "Failed to get config"
      match Bot.set_failed max_failing_spree db bot_id reason with
      | some db1 => .ok (botsWriteStateNext db1 bot_id state next_execution)
      | none => .error "fetchone returned no row"
  | .archived =>
      match Bot.set_archived db bot_id with
      | some db1 => .ok (botsWriteStateNext db1 bot_id state next_execution)
      | none => .error "fetchone returned no row"
  | .crashed => .ok db
  | s => .error ("Unexpected bot status " ++ pyStatusStr s)

/-- The bot-status-changing operations named by invariant I1. -/
inductive BotOp where
  | worked (bot_id : Nat)
  | failed (bot_id : Nat) (reason : String)
  | archive (bot_id : Nat)
  | crash (bot_id : Nat) (reason : String)
  | setAll (bot_ids : List Nat) (st : Status)

/-- Apply one of the status-changing operations. -/
def applyBotOp (max_failing_spree : Nat) (db : DB) : BotOp → Option DB
  | .worked b => Bot.set_worked db b
  | .failed b r => Bot.set_failed max_failing_spree db b r
  | .archive b => Bot.set_archived db b
  | .crash b r => Bot.set_crashed db b r
  | .setAll bs st => some (Bot.set_statuses db bs st)

/-- Bot ids whose status the operation updates. -/
def BotOp.targets : BotOp → List Nat
  | .worked b => [b]
  | .failed b _ => [b]
  | .archive b => [b]
  | .crash b _ => [b]
  | .setAll bs _ => bs

/-- Embedding of `Proxy.connection_string` (src/model.py:128-134); Python
truthiness of `username`/`password` means present and non-empty. -/
def connection_string (p : ProxyRow) : String :=
  match p.username, p.password with
  | some u, some pw =>
      if u ≠ "" ∧ pw ≠ "" then
        "socks5h://" ++ u ++ ":" ++ pw ++ "@" ++ p.host ++ ":" ++ toString p.port
      else
        "socks5h://" ++ p.host ++ ":" ++ toString p.port
  | _, _ => "socks5h://" ++ p.host ++ ":" ++ toString p.port

/-- Fresh SERIAL id for the `trackers` table. -/
def freshTrackerId (db : DB) : Nat := (db.trackers.map (·.tracker_id)).foldl max 0 + 1

/-- Fresh SERIAL id for the `bots` table. -/
def freshBotId (db : DB) : Nat := (db.bots.map (·.bot_id)).foldl max 0 + 1

/-- Fresh SERIAL id for the `tasks` table. -/
def freshTaskId (db : DB) : Nat := (db.tasks.map (·.task_id)).foldl max 0 + 1

/-- Embedding of `Task.create` (src/model.py:341-350): insert an INPROGRESS
row stamped with the current time and return its id. -/
def Task.create (db : DB) (now : Int) (bot_id : Nat) (st : Status) : DB × Nat :=
  let tid := freshTaskId db
  ({ db with tasks := db.tasks ++ [⟨tid, bot_id, STATUS_DB st, now⟩] }, tid)

/-- Embedding of `Task.update_after_run` (src/model.py:352-357). -/
def Task.update_after_run (db : DB) (task_id : Nat) (st : Status) : DB :=
  { db with tasks := db.tasks.map (fun t =>
      if t.task_id = task_id then { t with status := STATUS_DB st } else t) }

/-- Python dict assignment `d[k] = v`: replace in place when the key exists,
append otherwise. -/
def objSetKey (kvs : List (String × JsonValue)) (k : String) (v : JsonValue) :
    List (String × JsonValue) :=
  if kvs.any (fun p => p.1 == k) then
    kvs.map (fun p => if p.1 = k then (k, v) else p)
  else kvs ++ [(k, v)]

/-- The `static_config["_id"] = tracker.config_hash` stamp of
`scheduler.run_bot_task` (src/scheduler.py:63-64); the loaded config is a
JSON object. -/
def stampConfigId : JsonValue → String → JsonValue
  | .obj kvs, h => .obj (objSetKey kvs "_id" (.scalar h))
  | v, _ => v

/-- An enqueued `mtracker.track.execute` job (src/scheduler.py:66-76). -/
structure ExecuteJob where
  static_config : JsonValue
  saved_state : String
  proxy : String
  bot_id : Nat
  task_id : Nat

/-- An enqueued `mtracker.reporter.report_results` job
(src/scheduler.py:77-86). -/
structure ReportJob where
  bot_id : Nat
  config_hash : String
  task_id : Nat

/-- Outcome of one `run_bot_task` call: the database afterwards, the jobs
enqueued on the `track` and `report` queues, and whether a task was started
(the Python function returns the job id, `None` otherwise). -/
structure SchedOutcome where
  db : DB
  execJobs : List ExecuteJob
  repJobs : List ReportJob
  started : Bool

/-- Embedding of `scheduler.run_bot_task` (src/scheduler.py:24-87).  The
proxy group for the bot's country is the country-filtered proxy table
(`Proxy.get_countries` groups the country-ordered table, and grouping a
stably-sorted list by the sort key preserves the original relative order
within a group); `pick` stands for `random.choice`.  Errors model uncaught
Python exceptions. -/
def run_bot_task (max_failing_spree : Nat) (now : Int)
    (pick : List ProxyRow → ProxyRow) (db : DB) (bot_id : Nat) :
    Except String SchedOutcome :=
  match db.bots.find? (fun b => b.bot_id == bot_id) with
  | none => .ok ⟨db, [], [], false⟩
  | some bot =>
      match db.trackers.find? (fun t => t.tracker_id == bot.tracker_id) with
      | none => .error "Found a bot without tracker, db is corrupted"
      | some tracker =>
          let proxy_candidates := db.proxies.filter (fun p => p.country == bot.country)
          if proxy_candidates.isEmpty then
            match Bot.update_after_run max_failing_spree db bot_id none Status.failing
                (now + 86400) (some "No matching proxy found") with
            | .ok db2 => .ok ⟨db2, [], [], false⟩
            | .error e => .error e
          else
            let selected := pick proxy_candidates
            let created := Task.create db now bot_id Status.inprogress
            let db2 := Bot.set_statuses created.1 [bot_id] Status.inprogress
            let static_config := stampConfigId tracker.config tracker.config_hash
            .ok ⟨db2,
                 [⟨static_config, bot.state, connection_string selected, bot.bot_id, created.2⟩],
                 [⟨bot.bot_id, tracker.config_hash, created.2⟩],
                 true⟩

/-- `BotResult.WORKING` (src/bot.py:27). -/
def BRWORKING : Nat := 1

/-- `BotResult.CONTINUE` (src/bot.py:31). -/
def BRCONTINUE : Nat := 2

/-- `BotResult.ARCHIVE` (src/bot.py:37). -/
def BRARCHIVE : Nat := 4

/-- Outcome of one `module.run(c2)` call: a `BotResult` flag value, or a
raised exception. -/
inductive RunOutcome where
  | ok (flags : Nat)
  | exc

/-- The C2 loop of `BotModule.execute_task` (src/bot.py:193-212) over the
sequence of per-C2 outcomes, threading the `final_working` and
`final_archive` accumulators.  An exception is caught and logged and the
loop proceeds to the next C2 (the `break` check sits inside the `try`). -/
def execute_task_loop : Nat → Nat → List RunOutcome → Nat × Nat
  | w, a, [] => (w, a)
  | w, a, .exc :: rest => execute_task_loop w a rest
  | w, a, .ok r :: rest =>
      let w2 := w ||| (r &&& BRWORKING)
      let a2 := a ||| (r &&& BRARCHIVE)
      if r &&& BRCONTINUE == 0 then (w2, a2) else execute_task_loop w2 a2 rest

/-- Embedding of `BotModule.execute_task` (src/bot.py:187-219) restricted to
the final status (the result tree and state are accumulated on the module
instance and returned unchanged). -/
def execute_task (outs : List RunOutcome) : Status :=
  let wa := execute_task_loop 0 0 outs
  if wa.2 ≠ 0 then Status.archived else if wa.1 ≠ 0 then Status.working else Status.failing

/-- The claim's reading of an outcome: an exception is "treated as an empty
result with no flags set". -/
def claimedOutcome : RunOutcome → RunOutcome
  | .exc => .ok 0
  | o => o

/-- Task status as described by the claim for C3: every outcome (with
exceptions replaced by empty results) takes part in the stop-on-no-CONTINUE
loop. -/
def execute_task_claimed (outs : List RunOutcome) : Status :=
  execute_task (outs.map claimedOutcome)

/-- The visited part of the C2 outcome sequence: everything up to and
including the first non-exception outcome without the CONTINUE flag. -/
def visitedPart : List RunOutcome → List RunOutcome
  | [] => []
  | .exc :: rest => .exc :: visitedPart rest
  | .ok r :: rest =>
      if r &&& BRCONTINUE == 0 then [.ok r] else .ok r :: visitedPart rest

/-- Flags of the non-exception outcomes in a sequence. -/
def okFlagsIn (outs : List RunOutcome) : List Nat :=
  outs.filterMap (fun o => match o with | .ok r => some r | .exc => none)

/-- Declarative final status: ARCHIVED when some visited non-exception
outcome carries ARCHIVE, else WORKING when some carries WORKING, else
FAILING. -/
def statusOfVisited (outs : List RunOutcome) : Status :=
  let fl := okFlagsIn (visitedPart outs)
  if fl.any (fun r => r &&& BRARCHIVE ≠ 0) then Status.archived
  else if fl.any (fun r => r &&& BRWORKING ≠ 0) then Status.working
  else Status.failing

/-- A registered module class as the executor sees it: its
`CRITICAL_PARAMS` and its whole instantiate-and-run behaviour
(`cls(config, proxy, state)` followed by `execute_task()`), abstracted as a
function from the inputs to the returned `TaskResult` triple. -/
structure ModuleClassT where
  critical_params : List String
  runTask : List (String × JsonValue) → String → JsonValue → Status × JsonValue × JsonValue

/-- Embedding of `track.execute` (src/track.py:26-73): look up the module by
`static_config["type"]` (missing key raises), return CRASHED for an unknown
family, ARCHIVED when a critical parameter is missing, otherwise run the
module. -/
def execute (trackers : List (String × ModuleClassT))
    (static_config : List (String × JsonValue)) (saved_state : JsonValue)
    (proxy : String) : Except String (Status × JsonValue × JsonValue) :=
  match lookupKV static_config "type" with
  | none => .error "KeyError: type"
  | some fam =>
      match trackers.find? (fun m => JsonValue.scalar m.1 == fam) with
      | none => .ok (Status.crashed, JsonValue.obj [], saved_state)
      | some m =>
          if !m.2.critical_params.isEmpty &&
              m.2.critical_params.any (fun x => (lookupKV static_config x).isNone) then
            .ok (Status.archived, JsonValue.obj [], saved_state)
          else
            .ok (m.2.runTask static_config proxy saved_state)

/-- One artifact record returned by `report_mwdb_tree` (src/utils.py:38-122). -/
structure ReportedItem where
  rtype : String
  name : String
  sha256 : String
  tags : List String

/-- Embedding of `reporter.finalize_task` (src/reporter.py:43-60): update the
task status and insert one `Result` row per reported artifact. -/
def finalize_task (db : DB) (task_id : Nat) (results : List ReportedItem) (st : Status) : DB :=
  let db1 := Task.update_after_run db task_id st
  { db1 with results := db1.results ++
      results.map (fun r => ⟨task_id, r.rtype, r.name, r.sha256, r.tags⟩) }

/-- Python truthiness of a JSON value (`if dynamic_config:`). -/
def jsonTruthy : JsonValue → Bool
  | .scalar s => !s.isEmpty
  | .list xs => !xs.isEmpty
  | .obj kvs => !kvs.isEmpty

/-- Embedding of `reporter.report_results` (src/reporter.py:63-94) together
with `update_bot` (src/reporter.py:22-40).  `job_result` is the execute job's
stored return value (`None` after a timeout or crash); `reportTree` stands
for `utils.report_mwdb_tree`, whose uploads live outside the database.  When
the result is absent the function logs and returns with no database write. -/
def report_results (max_failing_spree : Nat) (now task_period : Int)
    (reportTree : JsonValue → String → List ReportedItem)
    (db : DB) (task_id bot_id : Nat) (config_hash : String)
    (job_result : Option (Status × JsonValue × JsonValue)) : Except String DB :=
  match job_result with
  | none => .ok db
  | some (st, dynamic_config, saved_state) =>
      let reported :=
        if (st == Status.working || st == Status.archived) && jsonTruthy dynamic_config then
          reportTree dynamic_config config_hash
        else []
      let db1 := finalize_task db task_id reported st
      Bot.update_after_run max_failing_spree db1 bot_id (some (jsonDumps saved_state)) st
        (now + task_period) none

/-- A proxy's identity tuple as `synchronize_proxies` compares entries:
(host, port, country, username, password), with absent credentials as
`none`. -/
abbrev PRec := String × Nat × String × Option String × Option String

/-- Projection to the (host, port, country) triple that `Proxy.delete`
(src/model.py:156-161) matches on. -/
def hpc (p : PRec) : String × Nat × String := (p.1, p.2.1, p.2.2.1)

/-- The comparison loop of `Proxy.synchronize_proxies` (src/model.py:189-201):
`delete_list` aliases the stored list and shrinks as entries are matched;
unmatched new entries are appended to `insert_list`; `none` models the
`assert n not in insert_list` failing. -/
def syncLoop : List PRec → List PRec → List PRec → Option (List PRec × List PRec)
  | dels, ins, [] => some (dels, ins)
  | dels, ins, n :: rest =>
      if n ∈ dels then syncLoop (dels.erase n) ins rest
      else if n ∈ ins then none
      else syncLoop dels (ins ++ [n]) rest

/-- Embedding of `Proxy.delete` (src/model.py:156-161): DELETE matches host,
port and country only. -/
def proxyDelete (stored : List PRec) (d : PRec) : List PRec :=
  stored.filter (fun p => decide (¬ hpc p = hpc d))

/-- Embedding of `Proxy.synchronize_proxies` (src/model.py:171-210): run the
comparison loop, apply the deletes then the inserts, and return
(new stored table, added, deleted). -/
def synchronize_proxies (stored new_proxies : List PRec) :
    Option (List PRec × List PRec × List PRec) :=
  match syncLoop stored [] new_proxies with
  | none => none
  | some (dels, ins) => some ((dels.foldl proxyDelete stored) ++ ins, ins, dels)

/-- Embedding of `model.TrackerModule` (src/model.py:18-21) as stored in
`AVAILABLE_MODULES` on the web server. -/
structure TrackerModuleT where
  critical_params : List String
  proxy_whitelist : Option (List String)

/-- Response of `server.track_config`. -/
structure TrackResp where
  isNew : Bool
  tracker_id : Nat
  bot_ids : List Nat

/-- Result of `server.track_config`: an unsupported-family error or a
response. -/
inductive TrackOut where
  | unsupported
  | ok (r : TrackResp)

/-- `Proxy.fetch_all` orders the table by country (src/model.py:136-139). -/
def sortProxies (l : List ProxyRow) : List ProxyRow :=
  isort (fun a b => strLeB a.country b.country) l

/-- Keys of `Proxy.get_countries` (src/model.py:163-169): the distinct
countries of the country-ordered proxy table. -/
def proxyCountryKeys (proxies : List ProxyRow) : List String :=
  ((sortProxies proxies).map (·.country)).dedup

/-- Embedding of `Bot.create` (src/model.py:551-564): a NEW bot with empty
state, zero spree and `next_execution = now`. -/
def Bot.create (db : DB) (now : Int) (tracker_id : Nat) (country family : String) :
    DB × Nat :=
  let bid := freshBotId db
  ({ db with bots := db.bots ++
      [⟨bid, tracker_id, STATUS_DB Status.new, "\x7b\x7d", 0, now, country, "", family⟩] }, bid)

/-- The bot-creation loop of `server.track_config` (src/server.py:113-131):
skip countries already tracked or excluded by the module's proxy whitelist,
create a NEW bot for each remaining country. -/
def createBotsLoop (now : Int) (tid : Nat) (family : String) (tracked : List String)
    (wl : Option (List String)) : DB → List Nat → List String → DB × List Nat
  | db, acc, [] => (db, acc)
  | db, acc, c :: cs =>
      if c ∈ tracked then createBotsLoop now tid family tracked wl db acc cs
      else if (match wl with | some w => decide (c ∉ w) | none => false) then
        createBotsLoop now tid family tracked wl db acc cs
      else
        let created := Bot.create db now tid c family
        createBotsLoop now tid family tracked wl created.1 (acc ++ [created.2]) cs

/-- Embedding of `server.track_config` (src/server.py:79-133): hash the
config, look the tracker up by hash (create it when absent), read the
tracker's bots through `Bot.fetch_by_tracker_id` — whose default LIMIT is 100
rows (src/model.py:609-617) — and create bots for untracked, unexcluded proxy
countries. -/
def track_config (mods : List (String × TrackerModuleT)) (h : String → String)
    (now : Int) (db : DB) (family : String) (config : JsonValue) : DB × TrackOut :=
  let dhash := config_dhash h config
  match mods.find? (fun m => m.1 == family) with
  | none => (db, .unsupported)
  | some fm =>
      match db.trackers.find? (fun t => t.config_hash == dhash) with
      | some tr =>
          let bots := (db.bots.filter (fun b => b.tracker_id == tr.tracker_id)).take 100
          let bot_ids := bots.map (·.bot_id)
          let tracked := bots.map (·.country)
          let created := createBotsLoop now tr.tracker_id family tracked fm.2.proxy_whitelist
            db [] (proxyCountryKeys db.proxies)
          (created.1, .ok ⟨false, tr.tracker_id, bot_ids ++ created.2⟩)
      | none =>
          let tid := freshTrackerId db
          let db1 := { db with trackers := db.trackers ++ [⟨tid, dhash, config, family, none⟩] }
          let created := createBotsLoop now tid family [] fm.2.proxy_whitelist
            db1 [] (proxyCountryKeys db1.proxies)
          (created.1, .ok ⟨true, tid, created.2⟩)

/-! Concrete instances used by the witnesses and counterexamples below. -/

/-- Identity digest used to instantiate the abstract hash in witnesses. -/
def hid : String → String := fun s => s

/-- Deterministic stand-in for `random.choice` in concrete runs. -/
def pickHead (l : List ProxyRow) : ProxyRow :=
  l.headD ⟨0, "", 0, "", none, none⟩

/-- One-tracker, one-bot database: bot 1 (tracker 10) is FAILING with an
empty spree. -/
def c1db : DB :=
  ⟨[⟨1, 10, "failing", "s", 0, 0, "us", "", "fam"⟩],
   [⟨10, "hash", .obj [], "fam", some "failing"⟩], [], [], []⟩

/-- One-tracker, one-bot database: bot 1 (tracker 10) is FAILING with
`failing_spree = 5`. -/
def c2db : DB :=
  ⟨[⟨1, 10, "failing", "st", 5, 0, "us", "old", "fam"⟩],
   [⟨10, "hash", .obj [], "fam", some "failing"⟩], [], [], []⟩

/-- Database with an INPROGRESS task 5 for bot 1. -/
def c4db : DB :=
  ⟨[⟨1, 10, "working", "st", 0, 0, "us", "", "fam"⟩],
   [⟨10, "hash", .obj [], "fam", some "working"⟩],
   [⟨5, 1, "inprogress", 0⟩], [], []⟩

/-- Upload function that reports nothing. -/
def noTree : JsonValue → String → List ReportedItem := fun _ _ => []

/-- The literal `{"a": 1, "b": [2, 1]}`. -/
def c5v : JsonValue := .obj [("a", .scalar "1"), ("b", .list [.scalar "2", .scalar "1"])]

/-- The literal `{"b": [1, 2], "a": 1}`. -/
def c5w : JsonValue := .obj [("b", .list [.scalar "1", .scalar "2"]), ("a", .scalar "1")]

/-- A bot for country "de" with `failing_spree = 5`; the proxy pool only has
a "us" proxy. -/
def c6db : DB :=
  ⟨[⟨1, 10, "failing", "st", 5, 0, "de", "x", "fam"⟩],
   [⟨10, "hash", .obj [("k", .scalar "v")], "fam", some "failing"⟩],
   [], [⟨1, "p", 1080, "us", none, none⟩], []⟩

/-- Same situation as `c6db` with a fresh spree. -/
def c6db2 : DB :=
  ⟨[⟨1, 10, "new", "st", 0, 0, "de", "", "fam"⟩],
   [⟨10, "hash", .obj [("k", .scalar "v")], "fam", some "new"⟩],
   [], [⟨1, "p", 1080, "us", none, none⟩], []⟩

/-- A module of family "fam" whose `CRITICAL_PARAMS` is `["key"]` and whose
run would report WORKING if it were ever reached. -/
def c7m : String × ModuleClassT :=
  ("fam", ⟨["key"], fun _ _ _ => (Status.working, .obj [], .obj [("r", .scalar "1")])⟩)

/-- A registry holding only `c7m`. -/
def c7mods : List (String × ModuleClassT) := [c7m]

/-- A config of family "fam" that misses the critical parameter "key". -/
def c7cfg : List (String × JsonValue) := [("type", .scalar "fam")]

/-- A saved state passed through the executor untouched. -/
def c7state : JsonValue := .obj [("s", .scalar "x")]

/-- Stored proxy (h, 1, c) with username u1. -/
def p8a : PRec := ("h", 1, "c", some "u1", none)

/-- Proxy (h, 1, c) with username u2: a distinct identity tuple sharing the
(host, port, country) triple with `p8a`. -/
def p8b : PRec := ("h", 1, "c", some "u2", none)

/-- Module registry of the ingest witness and counterexample. -/
def c9mods : List (String × TrackerModuleT) := [("fam", ⟨[], none⟩)]

/-- A proxy pool with 101 distinct one-letter countries. -/
def c9proxies : List ProxyRow :=
  (List.range 101).map (fun i => ⟨i, "h", 1, String.singleton (Char.ofNat (65 + i)), none, none⟩)

/-- Empty database holding the 101-country proxy pool. -/
def c9db0 : DB := ⟨[], [], [], c9proxies, []⟩

/-- First ingest of `("fam", {})` into `c9db0`. -/
def c9call1 : DB × TrackOut := track_config c9mods hid 0 c9db0 "fam" (.obj [])

/-- Second ingest of the same pair into the database left by the first. -/
def c9call2 : DB × TrackOut := track_config c9mods hid 0 c9call1.1 "fam" (.obj [])

/-- Empty database with a single "us" proxy. -/
def c9smallDb : DB := ⟨[], [], [], [⟨1, "p", 1080, "us", none, none⟩], []⟩

/-- Bitwise OR of a list of flag values. -/
def olor (l : List Nat) : Nat := l.foldr (· ||| ·) 0

/-- A stored proxy pool for the C8 witness. -/
def c8stored : List PRec := [("h", 1, "a", none, none)]

/-- A new proxy list for the C8 witness: keeps the stored proxy and adds a
fresh one with a distinct (host, port, country). -/
def c8P : List PRec := [("h", 1, "a", none, none), ("g", 2, "b", none, none)]

/-- Tracker database after the first small ingest of the C9 witness. -/
def c9smallDb1 : DB :=
  ⟨[⟨1, 1, "new", "\x7b\x7d", 0, 0, "us", "", "fam"⟩],
   [⟨1, config_dhash hid (.obj [("k", .scalar "v")]), .obj [("k", .scalar "v")], "fam", none⟩],
   [], [⟨1, "p", 1080, "us", none, none⟩], []⟩


/-- Database produced by the first small ingest: one NEW bot for "us" and the
new tracker row. -/
def c9sdb1 : DB :=
  ⟨[⟨1, 1, "new", "\x7b\x7d", 0, 0, "us", "", "fam"⟩],
   [⟨1, config_dhash hid (.obj []), .obj [], "fam", none⟩],
   [], [⟨1, "p", 1080, "us", none, none⟩], []⟩

/-- Response of the first small ingest. -/
def c9r1v : TrackResp := ⟨true, 1, [1]⟩

/-- Response of the second small ingest. -/
def c9r2v : TrackResp := ⟨false, 1, [1]⟩

/-- The single bot row of `c2db`. -/
def c2bot : BotRow := ⟨1, 10, "failing", "st", 5, 0, "us", "old", "fam"⟩

/-- The single bot row of `c6db2`. -/
def c6bot : BotRow := ⟨1, 10, "new", "st", 0, 0, "de", "", "fam"⟩

/-- The single tracker row of `c6db2`. -/
def c6tr : TrackerRow := ⟨10, "hash", .obj [("k", .scalar "v")], "fam", some "new"⟩

/-- State of `c1db` after `Bot.set_worked` on bot 1. -/
def c1dbAfter : DB :=
  ⟨[⟨1, 10, "working", "s", 0, 0, "us", "", "fam"⟩],
   [⟨10, "hash", .obj [], "fam", some "working"⟩], [], [], []⟩

/-- The bot row of `c1dbAfter`. -/
def c1botAfter : BotRow := ⟨1, 10, "working", "s", 0, 0, "us", "", "fam"⟩

/-- The tracker row of `c1dbAfter`. -/
def c1trAfter : TrackerRow := ⟨10, "hash", .obj [], "fam", some "working"⟩

/-- State of `c4db` after reporting a WORKING result with an empty tree. -/
def c4dbAfter : DB :=
  ⟨[⟨1, 10, "working", "\x7b\x7d", 0, 100, "us", "", "fam"⟩],
   [⟨10, "hash", .obj [], "fam", some "working"⟩],
   [⟨5, 1, "working", 0⟩], [], []⟩

/-! Helper lemmas. -/

/-- Membership in an UPDATE-shaped map: a row of the updated table with the
targeted bot id comes from a row with that id, with the update applied. -/
theorem mem_upd_bot (f : BotRow → BotRow) (bid : Nat) {l : List BotRow} {b : BotRow}
    (hb : b ∈ l.map (fun x => if x.bot_id = bid then f x else x))
    (hbid : b.bot_id = bid) :
    ∃ x, x ∈ l ∧ x.bot_id = bid ∧ b = f x := by
  obtain ⟨x, hx, hfx⟩ := List.mem_map.mp hb
  by_cases hP : x.bot_id = bid
  · exact ⟨x, hx, hP, by rw [← hfx, if_pos hP]⟩
  · rw [if_neg hP] at hfx
    exact absurd (hfx ▸ hbid) hP

/-- Membership in an UPDATE-shaped map, fully general: every row of the
updated table is a row of the old table with the update conditionally
applied. -/
theorem mem_upd_decomp {α : Type} (P : α → Prop) [DecidablePred P] (f : α → α)
    {l : List α} {b : α} (hb : b ∈ l.map (fun x => if P x then f x else x)) :
    ∃ x, x ∈ l ∧ (P x ∧ b = f x ∨ ¬ P x ∧ b = x) := by
  obtain ⟨x, hx, hfx⟩ := List.mem_map.mp hb
  by_cases hP : P x
  · exact ⟨x, hx, Or.inl ⟨hP, by rw [← hfx, if_pos hP]⟩⟩
  · exact ⟨x, hx, Or.inr ⟨hP, by rw [← hfx, if_neg hP]⟩⟩

/-- `m ||| n` vanishes exactly when both sides do. -/
theorem lor_eq_zero_iff (m n : Nat) : m ||| n = 0 ↔ m = 0 ∧ n = 0 := by
  constructor
  · intro h
    have hbit : ∀ i, Nat.testBit m i = false ∧ Nat.testBit n i = false := by
      intro i
      have hh := congrArg (fun x => Nat.testBit x i) h
      simp only [Nat.testBit_lor, Nat.zero_testBit] at hh
      exact Bool.or_eq_false_iff.mp hh
    constructor
    · exact Nat.eq_of_testBit_eq (fun i => by simp [Nat.zero_testBit, (hbit i).1])
    · exact Nat.eq_of_testBit_eq (fun i => by simp [Nat.zero_testBit, (hbit i).2])
  · rintro ⟨rfl, rfl⟩
    rfl

/-- `olor` vanishes exactly when every member does. -/
theorem olor_eq_zero_iff (l : List Nat) : olor l = 0 ↔ ∀ x ∈ l, x = 0 := by
  induction l with
  | nil => simp [olor]
  | cons x xs ih =>
      show x ||| olor xs = 0 ↔ _
      rw [lor_eq_zero_iff, ih]
      simp

/-- `olor` over mapped flags is nonzero exactly when some member maps to a
nonzero flag. -/
theorem olor_map_ne_zero (g : Nat → Nat) (l : List Nat) :
    olor (l.map g) ≠ 0 ↔ l.any (fun x => decide (g x ≠ 0)) = true := by
  rw [Ne, olor_eq_zero_iff]
  simp [List.any_eq_true]

/-! C10. -/

/-- C10: for statuses outside {WORKING, FAILING, ARCHIVED, CRASHED} — NEW and
INPROGRESS — `Bot.update_after_run` raises before issuing any UPDATE, leaving
the database untouched, and for CRASHED it returns the database with no field
written. -/
theorem update_after_run_guard (mp : Nat) (db : DB) (bid : Nat) (stj : Option String)
    (ne : Int) (lerr : Option String) :
    Bot.update_after_run mp db bid stj Status.new ne lerr =
      .error ("Unexpected bot status " ++ pyStatusStr Status.new) ∧
    Bot.update_after_run mp db bid stj Status.inprogress ne lerr =
      .error ("Unexpected bot status " ++ pyStatusStr Status.inprogress) ∧
    Bot.update_after_run mp db bid stj Status.crashed ne lerr = .ok db :=
  ⟨rfl, rfl, rfl⟩

/-! C7. -/

/-- C7: when the registered module's `critical_params` has a key absent from
the static config, `execute` returns `(ARCHIVED, {}, saved_state)` for every
possible module behaviour `m.2.runTask`, so the module is never run and the
saved state is passed back unchanged. -/
theorem execute_missing_critical (trackers : List (String × ModuleClassT))
    (cfg : List (String × JsonValue)) (st : JsonValue) (proxy : String) (f : String)
    (m : String × ModuleClassT) (p : String)
    (hfam : lookupKV cfg "type" = some (.scalar f))
    (hfind : trackers.find? (fun x => JsonValue.scalar x.1 == JsonValue.scalar f) = some m)
    (hp : p ∈ m.2.critical_params) (hmiss : lookupKV cfg p = none) :
    execute trackers cfg st proxy = .ok (Status.archived, JsonValue.obj [], st) := by
  have hne : m.2.critical_params.isEmpty = false := by
    cases hcp : m.2.critical_params with
    | nil => rw [hcp] at hp; cases hp
    | cons a l => rfl
  have hany : m.2.critical_params.any (fun x => (lookupKV cfg x).isNone) = true :=
    List.any_eq_true.mpr ⟨p, hp, by rw [hmiss]; rfl⟩
  simp only [execute, hfam, hfind, hne, hany, Bool.not_false, Bool.true_and, if_true]

/-- Witness for C7 at the concrete registry `c7mods` and config `c7cfg`. -/
theorem execute_missing_critical_witness :
    lookupKV c7cfg "type" = some (.scalar "fam") ∧
    c7mods.find? (fun x => JsonValue.scalar x.1 == JsonValue.scalar "fam") = some c7m ∧
    "key" ∈ c7m.2.critical_params ∧
    lookupKV c7cfg "key" = none ∧
    execute c7mods c7cfg c7state "p" = .ok (Status.archived, JsonValue.obj [], c7state) :=
  ⟨rfl, rfl, List.mem_singleton.mpr rfl, rfl,
   execute_missing_critical c7mods c7cfg c7state "p" "fam" c7m "key" rfl rfl
     (List.mem_singleton.mpr rfl) rfl⟩

/-! C3. -/

/-- The C2 loop computes, in each accumulator, the OR of the corresponding
flag over the non-exception outcomes of the visited part. -/
theorem execute_task_loop_spec (outs : List RunOutcome) : ∀ w a : Nat,
    execute_task_loop w a outs =
      (w ||| olor ((okFlagsIn (visitedPart outs)).map (fun r => r &&& BRWORKING)),
       a ||| olor ((okFlagsIn (visitedPart outs)).map (fun r => r &&& BRARCHIVE))) := by
  induction outs with
  | nil =>
      intro w a
      show (w, a) = _
      simp [visitedPart, okFlagsIn, olor]
  | cons o rest ih =>
      intro w a
      cases o with
      | exc =>
          show execute_task_loop w a rest = _
          rw [ih]
          rfl
      | ok r =>
          show (if r &&& BRCONTINUE == 0 then _ else execute_task_loop _ _ rest) = _
          by_cases hc : (r &&& BRCONTINUE == 0) = true
          · rw [if_pos hc]
            show (w ||| (r &&& BRWORKING), a ||| (r &&& BRARCHIVE)) = _
            have hv : visitedPart (.ok r :: rest) = [.ok r] := by
              show (if r &&& BRCONTINUE == 0 then _ else _) = _
              rw [if_pos hc]
            rw [hv]
            show _ = (w ||| ((r &&& BRWORKING) ||| 0), a ||| ((r &&& BRARCHIVE) ||| 0))
            rw [Nat.or_zero, Nat.or_zero]
          · rw [if_neg hc]
            rw [ih]
            have hv : visitedPart (.ok r :: rest) = .ok r :: visitedPart rest := by
              show (if r &&& BRCONTINUE == 0 then _ else _) = _
              rw [if_neg hc]
            rw [hv]
            show _ = (w ||| ((r &&& BRWORKING) ||| olor _), a ||| ((r &&& BRARCHIVE) ||| olor _))
            rw [← Nat.lor_assoc, ← Nat.lor_assoc]
            rfl

/-- C3 (amended): the loop visits C2s in order and stops after the first
non-exception outcome lacking CONTINUE; an exception contributes no flags but
does not stop the loop; the final status is ARCHIVED when some visited
non-exception outcome had ARCHIVE, else WORKING when some had WORKING, else
FAILING. -/
theorem execute_task_eq_statusOfVisited (outs : List RunOutcome) :
    execute_task outs = statusOfVisited outs := by
  unfold execute_task statusOfVisited
  rw [execute_task_loop_spec]
  simp only [Nat.zero_or]
  by_cases h4 : (okFlagsIn (visitedPart outs)).any (fun r => decide (r &&& BRARCHIVE ≠ 0)) = true
  · rw [if_pos ((olor_map_ne_zero _ _).mpr h4), if_pos h4]
  · rw [if_neg (fun hcon => h4 ((olor_map_ne_zero _ _).mp hcon)), if_neg h4]
    by_cases h1 : (okFlagsIn (visitedPart outs)).any (fun r => decide (r &&& BRWORKING ≠ 0)) = true
    · rw [if_pos ((olor_map_ne_zero _ _).mpr h1), if_pos h1]
    · rw [if_neg (fun hcon => h1 ((olor_map_ne_zero _ _).mp hcon)), if_neg h1]

/-- Counterexample for C3 as stated: after an exception on the first C2 (an
empty result, which lacks CONTINUE) the code does not stop — it proceeds and
returns WORKING from the second C2, while the claimed stop-on-no-CONTINUE
reading yields FAILING. -/
theorem execute_task_counterexample :
    execute_task [RunOutcome.exc, RunOutcome.ok 1] = Status.working ∧
    execute_task_claimed [RunOutcome.exc, RunOutcome.ok 1] = Status.failing ∧
    Status.working ≠ Status.failing :=
  ⟨rfl, rfl, by decide⟩

/-! C2. -/

/-- C2 (amended): after `Bot.update_after_run`, a WORKING outcome stores
spree 0 and status "working"; an ARCHIVED outcome (the `set_archived`
dispatch) stores spree 0 and status "archived"; but a FAILING outcome stores
the incremented spree `b0.failing_spree + 1` together with status "archived"
whenever that incremented spree exceeds `max_failing_spree` — the spree is
not reset to 0 on promotion. -/
theorem update_after_run_spree (mp : Nat) (db : DB) (bid : Nat) (stj : Option String)
    (ne : Int) (lerr : Option String) (b0 : BotRow)
    (hfind : db.bots.find? (fun b => b.bot_id == bid) = some b0) :
    (∀ db2, Bot.update_after_run mp db bid stj Status.working ne lerr = .ok db2 →
      ∀ b ∈ db2.bots, b.bot_id = bid → b.failing_spree = 0 ∧ b.status = "working") ∧
    (∀ db2, Bot.update_after_run mp db bid stj Status.archived ne lerr = .ok db2 →
      ∀ b ∈ db2.bots, b.bot_id = bid → b.failing_spree = 0 ∧ b.status = "archived") ∧
    (∀ db2, Bot.update_after_run mp db bid stj Status.failing ne lerr = .ok db2 →
      ∀ b ∈ db2.bots, b.bot_id = bid →
        b.failing_spree = b0.failing_spree + 1 ∧
        b.status = (if b0.failing_spree + 1 > mp then "archived" else "failing")) := by
  refine ⟨?_, ?_, ?_⟩
  · intro db2 h b hb hbid
    simp only [Bot.update_after_run, Bot.set_worked, hfind] at h
    obtain rfl : db2 = _ := (Except.ok.injEq _ _).mp h.symm
    obtain ⟨x1, hx1, hx1id, rfl⟩ := mem_upd_bot _ bid hb hbid
    obtain ⟨x0, _, _, rfl⟩ := mem_upd_bot _ bid hx1 hx1id
    exact ⟨rfl, rfl⟩
  · intro db2 h b hb hbid
    simp only [Bot.update_after_run, Bot.set_archived, hfind] at h
    obtain rfl : db2 = _ := (Except.ok.injEq _ _).mp h.symm
    obtain ⟨x1, hx1, hx1id, rfl⟩ := mem_upd_bot _ bid hb hbid
    obtain ⟨x0, _, _, rfl⟩ := mem_upd_bot _ bid hx1 hx1id
    exact ⟨rfl, rfl⟩
  · intro db2 h b hb hbid
    simp only [Bot.update_after_run, Bot.set_failed, hfind] at h
    obtain rfl : db2 = _ := (Except.ok.injEq _ _).mp h.symm
    obtain ⟨x1, hx1, hx1id, rfl⟩ := mem_upd_bot _ bid hb hbid
    obtain ⟨x0, _, _, rfl⟩ := mem_upd_bot _ bid hx1 hx1id
    refine ⟨rfl, ?_⟩
    show STATUS_DB (if b0.failing_spree + 1 > mp then Status.archived else Status.failing) = _
    by_cases hgt : b0.failing_spree + 1 > mp
    · simp only [if_pos hgt]
      rfl
    · simp only [if_neg hgt]
      rfl

/-- Counterexample for C2 as stated: promoting a bot with spree 5 at
`max_failing_spree = 5` through one more FAILING run stores
`failing_spree = 6`, not 0, alongside status "archived". -/
theorem update_after_run_spree_counterexample :
    Bot.update_after_run 5 c2db 1 none Status.failing 7 (some "boom") =
      .ok ⟨[⟨1, 10, "archived", "st", 6, 7, "us", "boom", "fam"⟩],
           [⟨10, "hash", .obj [], "fam", some "archived"⟩], [], [], []⟩ ∧
    (6 : Nat) ≠ 0 :=
  ⟨rfl, by decide⟩

/-- Witness for C2's amended theorem at the concrete database `c2db`. -/
theorem update_after_run_spree_witness :
    c2db.bots.find? (fun b => b.bot_id == 1) = some c2bot ∧
    ((∀ db2, Bot.update_after_run 5 c2db 1 none Status.working 7 (some "boom") = .ok db2 →
      ∀ b ∈ db2.bots, b.bot_id = 1 → b.failing_spree = 0 ∧ b.status = "working") ∧
    (∀ db2, Bot.update_after_run 5 c2db 1 none Status.archived 7 (some "boom") = .ok db2 →
      ∀ b ∈ db2.bots, b.bot_id = 1 → b.failing_spree = 0 ∧ b.status = "archived") ∧
    (∀ db2, Bot.update_after_run 5 c2db 1 none Status.failing 7 (some "boom") = .ok db2 →
      ∀ b ∈ db2.bots, b.bot_id = 1 →
        b.failing_spree = c2bot.failing_spree + 1 ∧
        b.status = (if c2bot.failing_spree + 1 > 5 then "archived" else "failing"))) :=
  ⟨rfl, update_after_run_spree 5 c2db 1 none 7 (some "boom") c2bot rfl⟩

/-! C4. -/

/-- Unfolding equation for `Bot.set_worked` once the SELECTed row is known. -/
theorem set_worked_eq (db : DB) (bid : Nat) (b0 : BotRow)
    (hfind : db.bots.find? (fun b => b.bot_id == bid) = some b0) :
    Bot.set_worked db bid =
      some (Tracker.update_statuses
        { db with bots := db.bots.map (fun b =>
            if b.bot_id = bid then
              { b with status := STATUS_DB Status.working, last_error := "", failing_spree := 0 }
            else b) } [b0.tracker_id]) := by
  rw [Bot.set_worked, hfind]

/-- Unfolding equation for `Bot.set_archived` once the SELECTed row is known. -/
theorem set_archived_eq (db : DB) (bid : Nat) (b0 : BotRow)
    (hfind : db.bots.find? (fun b => b.bot_id == bid) = some b0) :
    Bot.set_archived db bid =
      some (Tracker.update_statuses
        { db with bots := db.bots.map (fun b =>
            if b.bot_id = bid then
              { b with status := STATUS_DB Status.archived, last_error := "", failing_spree := 0 }
            else b) } [b0.tracker_id]) := by
  rw [Bot.set_archived, hfind]

/-- Unfolding equation for `Bot.set_failed` once the SELECTed row is known. -/
theorem set_failed_eq (mp : Nat) (db : DB) (bid : Nat) (reason : String) (b0 : BotRow)
    (hfind : db.bots.find? (fun b => b.bot_id == bid) = some b0) :
    Bot.set_failed mp db bid reason =
      some (Tracker.update_statuses
        { db with bots := db.bots.map (fun b =>
            if b.bot_id = bid then
              { b with
                  status := STATUS_DB (if b0.failing_spree + 1 > mp then Status.archived
                    else Status.failing),
                  last_error := reason, failing_spree := b0.failing_spree + 1 }
            else b) } [b0.tracker_id]) := by
  rw [Bot.set_failed, hfind]

/-- A successful `Bot.update_after_run` never touches the `tasks`, `proxies`
or `results` tables. -/
theorem update_after_run_frame (mp : Nat) (db : DB) (bid : Nat) (stj : Option String)
    (st : Status) (ne : Int) (lerr : Option String) (db2 : DB)
    (h : Bot.update_after_run mp db bid stj st ne lerr = .ok db2) :
    db2.tasks = db.tasks ∧ db2.proxies = db.proxies ∧ db2.results = db.results := by
  cases st <;> simp only [Bot.update_after_run] at h
  case crashed =>
    obtain rfl : db = db2 := (Except.ok.injEq _ _).mp h
    exact ⟨rfl, rfl, rfl⟩
  case new => cases h
  case inprogress => cases h
  case working =>
    cases hf : db.bots.find? (fun b => b.bot_id == bid) with
    | none => rw [Bot.set_worked, hf] at h; cases h
    | some b0 =>
        rw [set_worked_eq db bid b0 hf] at h
        obtain rfl : db2 = _ := (Except.ok.injEq _ _).mp h.symm
        exact ⟨rfl, rfl, rfl⟩
  case archived =>
    cases hf : db.bots.find? (fun b => b.bot_id == bid) with
    | none => rw [Bot.set_archived, hf] at h; cases h
    | some b0 =>
        rw [set_archived_eq db bid b0 hf] at h
        obtain rfl : db2 = _ := (Except.ok.injEq _ _).mp h.symm
        exact ⟨rfl, rfl, rfl⟩
  case failing =>
    cases hf : db.bots.find? (fun b => b.bot_id == bid) with
    | none => rw [Bot.set_failed, hf] at h; cases h
    | some b0 =>
        rw [set_failed_eq mp db bid _ b0 hf] at h
        obtain rfl : db2 = _ := (Except.ok.injEq _ _).mp h.symm
        exact ⟨rfl, rfl, rfl⟩

/-- A successful non-CRASHED `Bot.update_after_run` writes
`next_execution = ne` on every row with the targeted bot id. -/
theorem update_after_run_next_execution (mp : Nat) (db : DB) (bid : Nat)
    (stj : Option String) (st : Status) (ne : Int) (lerr : Option String) (db2 : DB)
    (h : Bot.update_after_run mp db bid stj st ne lerr = .ok db2)
    (hst : st ≠ Status.crashed) :
    ∀ b ∈ db2.bots, b.bot_id = bid → b.next_execution = ne := by
  cases st <;> simp only [Bot.update_after_run] at h
  case crashed => exact absurd rfl hst
  case new => cases h
  case inprogress => cases h
  case working =>
    cases hf : db.bots.find? (fun b => b.bot_id == bid) with
    | none => rw [Bot.set_worked, hf] at h; cases h
    | some b0 =>
        rw [set_worked_eq db bid b0 hf] at h
        obtain rfl : db2 = _ := (Except.ok.injEq _ _).mp h.symm
        intro b hb hbid
        obtain ⟨x1, _, _, rfl⟩ := mem_upd_bot _ bid hb hbid
        rfl
  case archived =>
    cases hf : db.bots.find? (fun b => b.bot_id == bid) with
    | none => rw [Bot.set_archived, hf] at h; cases h
    | some b0 =>
        rw [set_archived_eq db bid b0 hf] at h
        obtain rfl : db2 = _ := (Except.ok.injEq _ _).mp h.symm
        intro b hb hbid
        obtain ⟨x1, _, _, rfl⟩ := mem_upd_bot _ bid hb hbid
        rfl
  case failing =>
    cases hf : db.bots.find? (fun b => b.bot_id == bid) with
    | none => rw [Bot.set_failed, hf] at h; cases h
    | some b0 =>
        rw [set_failed_eq mp db bid _ b0 hf] at h
        obtain rfl : db2 = _ := (Except.ok.injEq _ _).mp h.symm
        intro b hb hbid
        obtain ⟨x1, _, _, rfl⟩ := mem_upd_bot _ bid hb hbid
        rfl

/-- C4 (amended): when the execute job produced no return value the reporter
logs and returns early, performing no task or bot update at all; only when a
result is present does it call `Task.update_after_run` with the returned
status and `Bot.update_after_run` with `next_execution = now + task_period`. -/
theorem report_results_updates (mp : Nat) (now p : Int)
    (rt : JsonValue → String → List ReportedItem) (db : DB) (tid bid : Nat)
    (ch : String) :
    report_results mp now p rt db tid bid ch none = .ok db ∧
    (∀ st tree stt db2,
      report_results mp now p rt db tid bid ch (some (st, tree, stt)) = .ok db2 →
      (∀ t ∈ db2.tasks, t.task_id = tid → t.status = STATUS_DB st) ∧
      (st ≠ Status.crashed → ∀ b ∈ db2.bots, b.bot_id = bid → b.next_execution = now + p)) := by
  constructor
  · rfl
  · intro st tree stt db2 h
    simp only [report_results] at h
    have htasks : db2.tasks = (finalize_task db tid _ st).tasks :=
      (update_after_run_frame mp _ bid _ st _ none db2 h).1
    constructor
    · intro t ht htid
      rw [htasks] at ht
      obtain ⟨x, _, hcase⟩ :=
        mem_upd_decomp (fun t : TaskRow => t.task_id = tid)
          (fun t => { t with status := STATUS_DB st }) ht
      rcases hcase with ⟨_, rfl⟩ | ⟨hne2, rfl⟩
      · rfl
      · exact absurd htid hne2
    · intro hst
      exact update_after_run_next_execution mp _ bid _ st _ none db2 h hst

/-- Counterexample for C4 as stated: with no execute-job result the reporter
returns the database untouched — the task keeps status "inprogress" instead
of being updated to CRASHED, and no bot update happens. -/
theorem report_results_counterexample :
    report_results 5 0 100 noTree c4db 5 1 "hash" none = .ok c4db ∧
    c4db.tasks.map (fun t => t.status) = ["inprogress"] ∧
    "inprogress" ≠ "crashed" :=
  ⟨rfl, rfl, by decide⟩

/-- Witness for C4's amended theorem: a present WORKING result updates task 5
and bot 1 of `c4db`. -/
theorem report_results_updates_witness :
    report_results 5 0 100 noTree c4db 5 1 "hash"
      (some (Status.working, .obj [], .obj [])) = .ok c4dbAfter ∧
    (∀ t ∈ c4dbAfter.tasks, t.task_id = 5 → t.status = STATUS_DB Status.working) ∧
    (∀ b ∈ c4dbAfter.bots, b.bot_id = 1 → b.next_execution = 0 + 100) :=
  ⟨rfl,
   ((report_results_updates 5 0 100 noTree c4db 5 1 "hash").2 Status.working (.obj [])
      (.obj []) c4dbAfter rfl).1,
   ((report_results_updates 5 0 100 noTree c4db 5 1 "hash").2 Status.working (.obj [])
      (.obj []) c4dbAfter rfl).2 (by decide)⟩

/-! C6. -/

/-- Composing two UPDATE-shaped maps that both leave `state` alone leaves the
projection to states unchanged. -/
theorem map_state_eq (l : List BotRow) (f g : BotRow → BotRow)
    (hfg : ∀ x, (g (f x)).state = x.state) :
    ((l.map f).map g).map (fun b => b.state) = l.map (fun b => b.state) := by
  induction l with
  | nil => rfl
  | cons x xs ih =>
      simp only [List.map_cons, ih]
      rw [hfg x]

/-- C6 (amended): with no proxy for the bot's country, `run_bot_task` creates
no task row, enqueues no jobs, leaves every bot's state unchanged, and updates
the bot through `Bot.update_after_run` with status FAILING — which stores
`last_error = "No matching proxy found"`, `next_execution = now + 24h` and the
incremented spree, and stores status "failing" unless the incremented spree
exceeds `max_failing_spree`, in which case the bot is stored as "archived". -/
theorem run_bot_task_no_proxy (mp : Nat) (now : Int) (pick : List ProxyRow → ProxyRow)
    (db : DB) (bid : Nat) (bot : BotRow) (tr : TrackerRow)
    (hfind : db.bots.find? (fun b => b.bot_id == bid) = some bot)
    (htr : db.trackers.find? (fun t => t.tracker_id == bot.tracker_id) = some tr)
    (hnop : db.proxies.filter (fun p => p.country == bot.country) = []) :
    ∃ db2, run_bot_task mp now pick db bid = .ok ⟨db2, [], [], false⟩ ∧
      db2.tasks = db.tasks ∧ db2.proxies = db.proxies ∧
      db2.bots.map (fun b => b.state) = db.bots.map (fun b => b.state) ∧
      ∀ b ∈ db2.bots, b.bot_id = bid →
        b.status = (if bot.failing_spree + 1 > mp then "archived" else "failing") ∧
        b.failing_spree = bot.failing_spree + 1 ∧
        b.last_error = "No matching proxy found" ∧
        b.next_execution = now + 86400 := by
  have hsf : Bot.set_failed mp db bid
      (if ("No matching proxy found" : String) = "" then "Failed to get config"
       else "No matching proxy found") =
      some (Tracker.update_statuses
        { db with bots := db.bots.map (fun b =>
            if b.bot_id = bid then
              { b with
                  status := STATUS_DB (if bot.failing_spree + 1 > mp then Status.archived
                    else Status.failing),
                  last_error := "No matching proxy found",
                  failing_spree := bot.failing_spree + 1 }
            else b) } [bot.tracker_id]) := by
    rw [if_neg (by decide)]
    exact set_failed_eq mp db bid "No matching proxy found" bot hfind
  have hupd : Bot.update_after_run mp db bid none Status.failing (now + 86400)
      (some "No matching proxy found") =
      .ok (botsWriteStateNext
        (Tracker.update_statuses
          { db with bots := db.bots.map (fun b =>
              if b.bot_id = bid then
                { b with
                    status := STATUS_DB (if bot.failing_spree + 1 > mp then Status.archived
                      else Status.failing),
                    last_error := "No matching proxy found",
                    failing_spree := bot.failing_spree + 1 }
              else b) } [bot.tracker_id]) bid none (now + 86400)) := by
    simp only [Bot.update_after_run, hsf]
  refine ⟨botsWriteStateNext
      (Tracker.update_statuses
        { db with bots := db.bots.map (fun b =>
            if b.bot_id = bid then
              { b with
                  status := STATUS_DB (if bot.failing_spree + 1 > mp then Status.archived
                    else Status.failing),
                  last_error := "No matching proxy found",
                  failing_spree := bot.failing_spree + 1 }
            else b) } [bot.tracker_id]) bid none (now + 86400), ?_, rfl, rfl, ?_, ?_⟩
  · simp only [run_bot_task, hfind, htr, hnop, List.isEmpty_nil, if_true, hupd]
  · exact map_state_eq db.bots _ _ (fun x => by
      by_cases h1 : x.bot_id = bid <;> simp [h1])
  · intro b hb hbid
    obtain ⟨x1, hx1, hx1id, rfl⟩ := mem_upd_bot _ bid hb hbid
    obtain ⟨x0, _, _, rfl⟩ := mem_upd_bot _ bid hx1 hx1id
    refine ⟨?_, rfl, rfl, rfl⟩
    show STATUS_DB (if bot.failing_spree + 1 > mp then Status.archived else Status.failing) = _
    by_cases hgt : bot.failing_spree + 1 > mp
    · simp only [if_pos hgt]
      rfl
    · simp only [if_neg hgt]
      rfl

/-- Counterexample for C6 as stated: a bot with spree 5 at
`max_failing_spree = 5` and no proxy for its country is stored as "archived",
not "failing". -/
theorem run_bot_task_no_proxy_counterexample :
    run_bot_task 5 0 pickHead c6db 1 =
      .ok ⟨⟨[⟨1, 10, "archived", "st", 6, 86400, "de", "No matching proxy found", "fam"⟩],
            [⟨10, "hash", .obj [("k", .scalar "v")], "fam", some "archived"⟩],
            [], [⟨1, "p", 1080, "us", none, none⟩], []⟩,
           [], [], false⟩ ∧
    "archived" ≠ "failing" :=
  ⟨rfl, by decide⟩

/-- Witness for C6's amended theorem at the fresh-spree bot of `c6db2`. -/
theorem run_bot_task_no_proxy_witness :
    c6db2.bots.find? (fun b => b.bot_id == 1) = some c6bot ∧
    c6db2.trackers.find? (fun t => t.tracker_id == c6bot.tracker_id) = some c6tr ∧
    c6db2.proxies.filter (fun p => p.country == c6bot.country) = [] ∧
    (∃ db2, run_bot_task 5 0 pickHead c6db2 1 = .ok ⟨db2, [], [], false⟩ ∧
      db2.tasks = c6db2.tasks ∧ db2.proxies = c6db2.proxies ∧
      db2.bots.map (fun b => b.state) = c6db2.bots.map (fun b => b.state) ∧
      ∀ b ∈ db2.bots, b.bot_id = 1 →
        b.status = (if c6bot.failing_spree + 1 > 5 then "archived" else "failing") ∧
        b.failing_spree = c6bot.failing_spree + 1 ∧
        b.last_error = "No matching proxy found" ∧
        b.next_execution = 0 + 86400) :=
  ⟨rfl, rfl, rfl, run_bot_task_no_proxy 5 0 pickHead c6db2 1 c6bot c6tr rfl rfl rfl⟩

/-! C1. -/

/-- The fold inside `sqlMinStatus` returns a member of least rank. -/
theorem foldl_min_spec (rest : List String) : ∀ s : String,
    (rest.foldl (fun acc x => if statusRank x < statusRank acc then x else acc) s) ∈ s :: rest ∧
    statusRank (rest.foldl (fun acc x => if statusRank x < statusRank acc then x else acc) s) ≤
      statusRank s ∧
    ∀ x ∈ rest,
      statusRank (rest.foldl (fun acc x => if statusRank x < statusRank acc then x else acc) s) ≤
        statusRank x := by
  induction rest with
  | nil =>
      intro s
      exact ⟨List.mem_singleton.mpr rfl, le_refl _, fun x hx => absurd hx (List.not_mem_nil x)⟩
  | cons y ys ih =>
      intro s
      show (ys.foldl _ (if statusRank y < statusRank s then y else s)) ∈ _ ∧ _ ∧ _
      obtain ⟨hmem, hle, hall⟩ := ih (if statusRank y < statusRank s then y else s)
      refine ⟨?_, ?_, ?_⟩
      · rcases List.mem_cons.mp hmem with h | h
        · rw [h]
          by_cases hc : statusRank y < statusRank s
          · rw [if_pos hc]
            exact List.mem_cons_of_mem _ (List.mem_cons_self _ _)
          · rw [if_neg hc]
            exact List.mem_cons_self _ _
        · exact List.mem_cons_of_mem _ (List.mem_cons_of_mem _ h)
      · refine le_trans hle ?_
        by_cases hc : statusRank y < statusRank s
        · rw [if_pos hc]
          exact Nat.le_of_lt hc
        · rw [if_neg hc]
      · intro x hx
        rcases List.mem_cons.mp hx with rfl | hxx
        · refine le_trans hle ?_
          by_cases hc : statusRank x < statusRank s
          · rw [if_pos hc]
          · rw [if_neg hc]
            exact Nat.le_of_not_lt hc
        · exact hall x hxx

/-- `sqlMinStatus` of a nonempty status list is a member of least rank. -/
theorem sqlMinStatus_spec (l : List String) (hne : l ≠ []) :
    ∃ m, sqlMinStatus l = some m ∧ m ∈ l ∧ ∀ x ∈ l, statusRank m ≤ statusRank x := by
  cases l with
  | nil => cases hne rfl
  | cons s rest =>
      obtain ⟨hmem, hle, hall⟩ := foldl_min_spec rest s
      refine ⟨_, rfl, hmem, ?_⟩
      intro x hx
      rcases List.mem_cons.mp hx with rfl | hxx
      · exact hle
      · exact hall x hxx

/-- A tracker listed in `tids` gets exactly the SQL MIN of its bots'
statuses. -/
theorem mem_update_statuses (db : DB) (tids : List Nat) (t : TrackerRow)
    (ht : t ∈ (Tracker.update_statuses db tids).trackers) (hid : t.tracker_id ∈ tids) :
    t.status = sqlMinStatus (botStatusesOf db.bots t.tracker_id) := by
  obtain ⟨t0, ht0, heq⟩ := List.mem_map.mp ht
  by_cases hc : t0.tracker_id ∈ tids
  · rw [if_pos hc] at heq
    rw [← heq]
  · rw [if_neg hc] at heq
    rw [← heq] at hid
    exact absurd hid hc

/-- After recomputation, a tracker in `tids` with at least one bot carries a
least-rank member of its bots' statuses. -/
theorem tracker_min_conclusion (dbmid : DB) (tids : List Nat) (t : TrackerRow)
    (ht : t ∈ (Tracker.update_statuses dbmid tids).trackers)
    (hid : t.tracker_id ∈ tids)
    (b : BotRow) (hb : b ∈ dbmid.bots) (hbt : b.tracker_id = t.tracker_id) :
    ∃ s, t.status = some s ∧
      s ∈ botStatusesOf (Tracker.update_statuses dbmid tids).bots t.tracker_id ∧
      ∀ x ∈ botStatusesOf (Tracker.update_statuses dbmid tids).bots t.tracker_id,
        statusRank s ≤ statusRank x := by
  have hts := mem_update_statuses dbmid tids t ht hid
  have hbmem : b.status ∈ botStatusesOf dbmid.bots t.tracker_id := by
    apply List.mem_map_of_mem
    refine List.mem_filter.mpr ⟨hb, ?_⟩
    simp [hbt]
  have hnonnil : botStatusesOf dbmid.bots t.tracker_id ≠ [] := by
    intro hnil
    rw [hnil] at hbmem
    cases hbmem
  obtain ⟨m, hm, hmem, hall⟩ := sqlMinStatus_spec _ hnonnil
  exact ⟨m, by rw [hts, hm], hmem, hall⟩

/-- Unfolding equation for `Bot.set_crashed` once the SELECTed row is known. -/
theorem set_crashed_eq (db : DB) (bid : Nat) (reason : String) (b0 : BotRow)
    (hfind : db.bots.find? (fun b => b.bot_id == bid) = some b0) :
    Bot.set_crashed db bid reason =
      some (Tracker.update_statuses
        { db with bots := db.bots.map (fun b =>
            if b.bot_id = bid then
              { b with status := STATUS_DB Status.crashed, last_error := reason }
            else b) } [b0.tracker_id]) := by
  rw [Bot.set_crashed, hfind]

/-- The SELECTed row of a single-bot operation is the unique row carrying the
targeted id, so an affected row has the SELECTed row's tracker id. -/
theorem affected_tracker_eq (db : DB) (bid : Nat) (b0 : BotRow) (x : BotRow)
    (hnd : (db.bots.map (fun b => b.bot_id)).Nodup)
    (hfind : db.bots.find? (fun b => b.bot_id == bid) = some b0)
    (hx : x ∈ db.bots) (hxid : x.bot_id = bid) : x = b0 := by
  have hb0mem : b0 ∈ db.bots := List.mem_of_find?_eq_some hfind
  have hb0id : b0.bot_id = bid := by simpa using List.find?_some hfind
  exact List.inj_on_of_nodup_map hnd hx hb0mem (by rw [hxid, hb0id])

/-- C1 (spec-modelled): after any of the bot-status-changing operations, the
status of every tracker owning an affected bot equals a least-rank member —
in the section-3 enum order modelled by `statusRank` — of the statuses of all
its bots. -/
theorem tracker_status_is_min (mp : Nat) (db db' : DB) (op : BotOp)
    (hnd : (db.bots.map (fun b => b.bot_id)).Nodup)
    (hap : applyBotOp mp db op = some db')
    (t : TrackerRow) (ht : t ∈ db'.trackers)
    (b : BotRow) (hb : b ∈ db'.bots)
    (hbid : b.bot_id ∈ op.targets) (hbt : b.tracker_id = t.tracker_id) :
    ∃ s, t.status = some s ∧ s ∈ botStatusesOf db'.bots t.tracker_id ∧
      ∀ x ∈ botStatusesOf db'.bots t.tracker_id, statusRank s ≤ statusRank x := by
  cases op with
  | worked bid =>
      replace hbid : b.bot_id = bid := List.mem_singleton.mp hbid
      simp only [applyBotOp] at hap
      cases hf : db.bots.find? (fun x => x.bot_id == bid) with
      | none => rw [Bot.set_worked, hf] at hap; cases hap
      | some b0 =>
          rw [set_worked_eq db bid b0 hf] at hap
          obtain rfl : db' = _ := (Option.some.injEq _ _).mp hap.symm
          obtain ⟨x, hx, hcase⟩ := mem_upd_decomp (fun y : BotRow => y.bot_id = bid) _ hb
          have hxid : x.bot_id = bid := by
            rcases hcase with ⟨_, rfl⟩ | ⟨_, rfl⟩ <;> exact hbid
          have hxtr : b.tracker_id = x.tracker_id := by
            rcases hcase with ⟨_, rfl⟩ | ⟨_, rfl⟩ <;> rfl
          obtain rfl := affected_tracker_eq db bid b0 x hnd hf hx hxid
          refine tracker_min_conclusion _ _ t ht ?_ b hb hbt
          rw [← hbt, hxtr]
          exact List.mem_singleton.mpr rfl
  | archive bid =>
      replace hbid : b.bot_id = bid := List.mem_singleton.mp hbid
      simp only [applyBotOp] at hap
      cases hf : db.bots.find? (fun x => x.bot_id == bid) with
      | none => rw [Bot.set_archived, hf] at hap; cases hap
      | some b0 =>
          rw [set_archived_eq db bid b0 hf] at hap
          obtain rfl : db' = _ := (Option.some.injEq _ _).mp hap.symm
          obtain ⟨x, hx, hcase⟩ := mem_upd_decomp (fun y : BotRow => y.bot_id = bid) _ hb
          have hxid : x.bot_id = bid := by
            rcases hcase with ⟨_, rfl⟩ | ⟨_, rfl⟩ <;> exact hbid
          have hxtr : b.tracker_id = x.tracker_id := by
            rcases hcase with ⟨_, rfl⟩ | ⟨_, rfl⟩ <;> rfl
          obtain rfl := affected_tracker_eq db bid b0 x hnd hf hx hxid
          refine tracker_min_conclusion _ _ t ht ?_ b hb hbt
          rw [← hbt, hxtr]
          exact List.mem_singleton.mpr rfl
  | crash bid reason =>
      replace hbid : b.bot_id = bid := List.mem_singleton.mp hbid
      simp only [applyBotOp] at hap
      cases hf : db.bots.find? (fun x => x.bot_id == bid) with
      | none => rw [Bot.set_crashed, hf] at hap; cases hap
      | some b0 =>
          rw [set_crashed_eq db bid reason b0 hf] at hap
          obtain rfl : db' = _ := (Option.some.injEq _ _).mp hap.symm
          obtain ⟨x, hx, hcase⟩ := mem_upd_decomp (fun y : BotRow => y.bot_id = bid) _ hb
          have hxid : x.bot_id = bid := by
            rcases hcase with ⟨_, rfl⟩ | ⟨_, rfl⟩ <;> exact hbid
          have hxtr : b.tracker_id = x.tracker_id := by
            rcases hcase with ⟨_, rfl⟩ | ⟨_, rfl⟩ <;> rfl
          obtain rfl := affected_tracker_eq db bid b0 x hnd hf hx hxid
          refine tracker_min_conclusion _ _ t ht ?_ b hb hbt
          rw [← hbt, hxtr]
          exact List.mem_singleton.mpr rfl
  | failed bid reason =>
      replace hbid : b.bot_id = bid := List.mem_singleton.mp hbid
      simp only [applyBotOp] at hap
      cases hf : db.bots.find? (fun x => x.bot_id == bid) with
      | none => rw [Bot.set_failed, hf] at hap; cases hap
      | some b0 =>
          rw [set_failed_eq mp db bid reason b0 hf] at hap
          obtain rfl : db' = _ := (Option.some.injEq _ _).mp hap.symm
          obtain ⟨x, hx, hcase⟩ := mem_upd_decomp (fun y : BotRow => y.bot_id = bid) _ hb
          have hxid : x.bot_id = bid := by
            rcases hcase with ⟨_, rfl⟩ | ⟨_, rfl⟩ <;> exact hbid
          have hxtr : b.tracker_id = x.tracker_id := by
            rcases hcase with ⟨_, rfl⟩ | ⟨_, rfl⟩ <;> rfl
          obtain rfl := affected_tracker_eq db bid b0 x hnd hf hx hxid
          refine tracker_min_conclusion _ _ t ht ?_ b hb hbt
          rw [← hbt, hxtr]
          exact List.mem_singleton.mpr rfl
  | setAll bids st =>
      simp only [applyBotOp] at hap
      obtain rfl : db' = _ := (Option.some.injEq _ _).mp hap.symm
      refine tracker_min_conclusion _ _ t ht ?_ b hb hbt
      rw [← hbt]
      apply List.mem_dedup.mpr
      apply List.mem_map_of_mem
      refine List.mem_filter.mpr ⟨hb, ?_⟩
      simpa using hbid

/-- Witness for C1 at `c1db` with the `set_worked` operation on bot 1. -/
theorem tracker_status_is_min_witness :
    (c1db.bots.map (fun b => b.bot_id)).Nodup ∧
    applyBotOp 5 c1db (BotOp.worked 1) = some c1dbAfter ∧
    c1trAfter ∈ c1dbAfter.trackers ∧
    c1botAfter ∈ c1dbAfter.bots ∧
    c1botAfter.bot_id ∈ (BotOp.worked 1).targets ∧
    c1botAfter.tracker_id = c1trAfter.tracker_id ∧
    (∃ s, c1trAfter.status = some s ∧
      s ∈ botStatusesOf c1dbAfter.bots c1trAfter.tracker_id ∧
      ∀ x ∈ botStatusesOf c1dbAfter.bots c1trAfter.tracker_id,
        statusRank s ≤ statusRank x) :=
  ⟨by decide, rfl, List.mem_singleton.mpr rfl, List.mem_singleton.mpr rfl, by decide, rfl,
   tracker_status_is_min 5 c1db c1dbAfter (BotOp.worked 1) (by decide) rfl c1trAfter
     (List.mem_singleton.mpr rfl) c1botAfter (List.mem_singleton.mpr rfl) (by decide) rfl⟩

/-! C5. -/

/-- Inserting keeps the list a permutation of the cons. -/
theorem insertLe_perm {α : Type} (le : α → α → Bool) (x : α) (l : List α) :
    (insertLe le x l).Perm (x :: l) := by
  induction l with
  | nil => exact List.Perm.refl _
  | cons y ys ih =>
      show (if le x y then x :: y :: ys else y :: insertLe le x ys).Perm (x :: y :: ys)
      by_cases hc : le x y = true
      · rw [if_pos hc]
      · rw [if_neg hc]
        exact (ih.cons y).trans (List.Perm.swap x y ys)

/-- The insertion sort permutes its input. -/
theorem isort_perm {α : Type} (le : α → α → Bool) (l : List α) : (isort le l).Perm l := by
  induction l with
  | nil => exact List.Perm.refl _
  | cons x xs ih =>
      exact (insertLe_perm le x (isort le xs)).trans (ih.cons x)

/-- `listLeB` is total. -/
theorem listLeB_total : ∀ as bs, listLeB as bs = true ∨ listLeB bs as = true := by
  intro as
  induction as with
  | nil => intro bs; exact Or.inl rfl
  | cons a as ih =>
      intro bs
      cases bs with
      | nil => exact Or.inr rfl
      | cons b bs =>
          by_cases h1 : a.toNat < b.toNat
          · left
            show (if a.toNat < b.toNat then true else _) = true
            rw [if_pos h1]
          · by_cases h2 : b.toNat < a.toNat
            · right
              show (if b.toNat < a.toNat then true else _) = true
              rw [if_pos h2]
            · rcases ih bs with h | h
              · left
                show (if a.toNat < b.toNat then true
                  else if b.toNat < a.toNat then false else listLeB as bs) = true
                rw [if_neg h1, if_neg h2]
                exact h
              · right
                show (if b.toNat < a.toNat then true
                  else if a.toNat < b.toNat then false else listLeB bs as) = true
                rw [if_neg h2, if_neg h1]
                exact h

/-- `listLeB` is transitive. -/
theorem listLeB_trans : ∀ as bs cs, listLeB as bs = true → listLeB bs cs = true →
    listLeB as cs = true := by
  intro as
  induction as with
  | nil => intro bs cs _ _; rfl
  | cons a as ih =>
      intro bs cs hab hbc
      cases bs with
      | nil => cases hab
      | cons b bs =>
          cases cs with
          | nil => cases hbc
          | cons c cs =>
              show (if a.toNat < c.toNat then true
                else if c.toNat < a.toNat then false else listLeB as cs) = true
              by_cases hab1 : a.toNat < b.toNat
              · by_cases hbc1 : b.toNat < c.toNat
                · rw [if_pos (Nat.lt_trans hab1 hbc1)]
                · by_cases hbc2 : c.toNat < b.toNat
                  · rw [show (listLeB (b :: bs) (c :: cs)) =
                      (if b.toNat < c.toNat then true
                       else if c.toNat < b.toNat then false else listLeB bs cs) from rfl,
                      if_neg hbc1, if_pos hbc2] at hbc
                    cases hbc
                  · have hbceq : b.toNat = c.toNat := by omega
                    rw [if_pos (by omega)]
              · by_cases hab2 : b.toNat < a.toNat
                · rw [show (listLeB (a :: as) (b :: bs)) =
                    (if a.toNat < b.toNat then true
                     else if b.toNat < a.toNat then false else listLeB as bs) from rfl,
                    if_neg hab1, if_pos hab2] at hab
                  cases hab
                · have habeq : a.toNat = b.toNat := by omega
                  rw [show (listLeB (a :: as) (b :: bs)) =
                    (if a.toNat < b.toNat then true
                     else if b.toNat < a.toNat then false else listLeB as bs) from rfl,
                    if_neg hab1, if_neg hab2] at hab
                  by_cases hbc1 : b.toNat < c.toNat
                  · rw [if_pos (by omega)]
                  · by_cases hbc2 : c.toNat < b.toNat
                    · rw [show (listLeB (b :: bs) (c :: cs)) =
                        (if b.toNat < c.toNat then true
                         else if c.toNat < b.toNat then false else listLeB bs cs) from rfl,
                        if_neg hbc1, if_pos hbc2] at hbc
                      cases hbc
                    · rw [show (listLeB (b :: bs) (c :: cs)) =
                        (if b.toNat < c.toNat then true
                         else if c.toNat < b.toNat then false else listLeB bs cs) from rfl,
                        if_neg hbc1, if_neg hbc2] at hbc
                      rw [if_neg (by omega), if_neg (by omega)]
                      exact ih bs cs hab hbc

/-- Characters with equal code points are equal. -/
theorem char_toNat_inj {a b : Char} (h : a.toNat = b.toNat) : a = b :=
  Char.eq_of_val_eq (UInt32.eq_of_val_eq (Fin.ext h))

/-- `listLeB` is antisymmetric. -/
theorem listLeB_antisymm : ∀ as bs, listLeB as bs = true → listLeB bs as = true →
    as = bs := by
  intro as
  induction as with
  | nil =>
      intro bs hab hba
      cases bs with
      | nil => rfl
      | cons b bs => cases hba
  | cons a as ih =>
      intro bs hab hba
      cases bs with
      | nil => cases hab
      | cons b bs =>
          by_cases h1 : a.toNat < b.toNat
          · rw [show (listLeB (b :: bs) (a :: as)) =
              (if b.toNat < a.toNat then true
               else if a.toNat < b.toNat then false else listLeB bs as) from rfl,
              if_neg (by omega), if_pos h1] at hba
            cases hba
          · by_cases h2 : b.toNat < a.toNat
            · rw [show (listLeB (a :: as) (b :: bs)) =
                (if a.toNat < b.toNat then true
                 else if b.toNat < a.toNat then false else listLeB as bs) from rfl,
                if_neg h1, if_pos h2] at hab
              cases hab
            · rw [show (listLeB (a :: as) (b :: bs)) =
                (if a.toNat < b.toNat then true
                 else if b.toNat < a.toNat then false else listLeB as bs) from rfl,
                if_neg h1, if_neg h2] at hab
              rw [show (listLeB (b :: bs) (a :: as)) =
                (if b.toNat < a.toNat then true
                 else if a.toNat < b.toNat then false else listLeB bs as) from rfl,
                if_neg h2, if_neg h1] at hba
              rw [char_toNat_inj (show a.toNat = b.toNat by omega), ih bs hab hba]

/-- `strLeB` is total. -/
theorem strLeB_total (a b : String) : strLeB a b = true ∨ strLeB b a = true :=
  listLeB_total a.data b.data

/-- `strLeB` is transitive. -/
theorem strLeB_trans {a b c : String} (h1 : strLeB a b = true) (h2 : strLeB b c = true) :
    strLeB a c = true :=
  listLeB_trans a.data b.data c.data h1 h2

/-- `strLeB` is antisymmetric. -/
theorem strLeB_antisymm {a b : String} (h1 : strLeB a b = true) (h2 : strLeB b a = true) :
    a = b := by
  cases a with
  | mk da =>
      cases b with
      | mk db => rw [listLeB_antisymm da db h1 h2]

/-- Inserting a string into a sorted list keeps it sorted. -/
theorem insertLe_sorted (x : String) (l : List String)
    (hs : l.Pairwise (fun a b => strLeB a b = true)) :
    (insertLe strLeB x l).Pairwise (fun a b => strLeB a b = true) := by
  induction l with
  | nil => simp [insertLe]
  | cons y ys ih =>
      rcases List.pairwise_cons.mp hs with ⟨hy, hys⟩
      show (if strLeB x y then x :: y :: ys else y :: insertLe strLeB x ys).Pairwise _
      by_cases hc : strLeB x y = true
      · rw [if_pos hc]
        refine List.pairwise_cons.mpr ⟨?_, hs⟩
        intro b hb
        rcases List.mem_cons.mp hb with rfl | hbm
        · exact hc
        · exact strLeB_trans hc (hy b hbm)
      · rw [if_neg hc]
        refine List.pairwise_cons.mpr ⟨?_, ih hys⟩
        intro b hb
        have hb2 : b ∈ x :: ys := (insertLe_perm _ x ys).mem_iff.mp hb
        rcases List.mem_cons.mp hb2 with rfl | hbm
        · rcases strLeB_total b y with h1 | h1
          · exact absurd h1 hc
          · exact h1
        · exact hy b hbm

/-- `sortStr` sorts. -/
theorem sortStr_sorted (l : List String) :
    (sortStr l).Pairwise (fun a b => strLeB a b = true) := by
  induction l with
  | nil => simp [sortStr, isort]
  | cons x xs ih => exact insertLe_sorted x _ ih

/-- `sortStr` of permuted inputs is equal. -/
theorem sortStr_congr {l l' : List String} (hp : l.Perm l') : sortStr l = sortStr l' := by
  haveI : IsAntisymm String (fun a b => strLeB a b = true) :=
    ⟨fun _ _ h1 h2 => strLeB_antisymm h1 h2⟩
  exact List.eq_of_perm_of_sorted
    ((isort_perm _ l).trans (hp.trans (isort_perm _ l').symm))
    (sortStr_sorted l) (sortStr_sorted l')

/-- `config_dhashList` is the map of `config_dhash`. -/
theorem config_dhashList_eq_map (h : String → String) (xs : List JsonValue) :
    config_dhashList h xs = xs.map (config_dhash h) := by
  induction xs with
  | nil => rfl
  | cons x xs ih =>
      show config_dhash h x :: config_dhashList h xs = _
      rw [ih]
      rfl

/-- `config_dhashKV` is the map of `config_dhash` over the values. -/
theorem config_dhashKV_eq_map (h : String → String) (kvs : List (String × JsonValue)) :
    config_dhashKV h kvs = kvs.map (fun kv => (kv.1, config_dhash h kv.2)) := by
  induction kvs with
  | nil => rfl
  | cons kv kvs ih =>
      show (kv.1, config_dhash h kv.2) :: config_dhashKV h kvs = _
      rw [ih]
      rfl

/-- Permutation equivalence at any fuel leaves `config_dhash` unchanged. -/
theorem jpermN_dhash (h : String → String) :
    ∀ n v w, JPermN n v w → config_dhash h v = config_dhash h w := by
  intro n
  induction n with
  | zero =>
      intro v w hf
      exact False.elim hf
  | succ n ih =>
      intro v w hp
      cases v with
      | scalar a =>
          cases w with
          | scalar b =>
              have hab : a = b := hp
              rw [hab]
          | list ys => exact False.elim hp
          | obj kvs2 => exact False.elim hp
      | list xs =>
          cases w with
          | scalar b => exact False.elim hp
          | obj kvs2 => exact False.elim hp
          | list ys =>
              obtain ⟨zs, hperm, hf⟩ :=
                (hp : ∃ zs, zs.Perm ys ∧ List.Forall₂ (JPermN n) xs zs)
              have hlist : config_dhashList h xs = config_dhashList h zs := by
                clear hperm
                induction hf with
                | nil => rfl
                | cons hxz hrest ihr =>
                    show config_dhash h _ :: config_dhashList h _ = _
                    rw [ih _ _ hxz, ihr]
                    rfl
              have hperm2 : (config_dhashList h zs).Perm (config_dhashList h ys) := by
                rw [config_dhashList_eq_map, config_dhashList_eq_map]
                exact hperm.map _
              show h (pyStrList (sortStr (config_dhashList h xs))) = _
              rw [hlist, sortStr_congr hperm2]
              rfl
      | obj kvs =>
          cases w with
          | scalar b => exact False.elim hp
          | list ys => exact False.elim hp
          | obj kvs2 =>
              obtain ⟨zs, hperm, hf⟩ :=
                (hp : ∃ zs, zs.Perm kvs2 ∧
                  List.Forall₂ (fun a b => a.1 = b.1 ∧ JPermN n a.2 b.2) kvs zs)
              have hkv : kvs.map (fun kv => (kv.1, config_dhash h kv.2)) =
                  zs.map (fun kv => (kv.1, config_dhash h kv.2)) := by
                clear hperm
                induction hf with
                | nil => rfl
                | cons hxz hrest ihr =>
                    simp only [List.map_cons]
                    rw [hxz.1, ih _ _ hxz.2, ihr]
              have hA : (sortPairsByKey (config_dhashKV h kvs)).Perm
                  (sortPairsByKey (config_dhashKV h kvs2)) := by
                have h1 : (config_dhashKV h kvs).Perm (config_dhashKV h kvs2) := by
                  rw [config_dhashKV_eq_map, config_dhashKV_eq_map, hkv]
                  exact hperm.map _
                exact (isort_perm _ _).trans (h1.trans (isort_perm _ _).symm)
              show h (pyStrList (sortStr ((sortPairsByKey (config_dhashKV h kvs)).map
                (fun kv => h (pyStrList (sortStr [h kv.1, h kv.2])))))) = _
              rw [sortStr_congr (hA.map _)]
              rfl

/-- C5: `config_dhash` is invariant under nested permutation of mapping keys
and list element order, for every digest function `h`. -/
theorem config_dhash_perm_invariant (h : String → String) (v w : JsonValue)
    (hp : JPerm v w) : config_dhash h v = config_dhash h w := by
  obtain ⟨n, hn⟩ := hp
  exact jpermN_dhash h n v w hn

/-- Witness for C5 at the spec's concrete example
`{"a":1,"b":[2,1]}` versus `{"b":[1,2],"a":1}`. -/
theorem config_dhash_perm_invariant_witness :
    JPerm c5v c5w ∧ config_dhash hid c5v = config_dhash hid c5w := by
  have d : JPerm c5v c5w := by
    refine ⟨3, ?_⟩
    show ∃ zs, zs.Perm [("b", JsonValue.list [.scalar "1", .scalar "2"]), ("a", .scalar "1")] ∧
      List.Forall₂ (fun a b => a.1 = b.1 ∧ JPermN 2 a.2 b.2)
        [("a", JsonValue.scalar "1"), ("b", JsonValue.list [.scalar "2", .scalar "1"])] zs
    refine ⟨[("a", JsonValue.scalar "1"), ("b", JsonValue.list [.scalar "1", .scalar "2"])],
      List.Perm.swap _ _ _, ?_⟩
    refine List.Forall₂.cons ⟨rfl, ?_⟩ (List.Forall₂.cons ⟨rfl, ?_⟩ List.Forall₂.nil)
    · exact (rfl : ("1" : String) = "1")
    · show ∃ zs2, zs2.Perm [JsonValue.scalar "1", JsonValue.scalar "2"] ∧
        List.Forall₂ (JPermN 1) [JsonValue.scalar "2", JsonValue.scalar "1"] zs2
      refine ⟨[JsonValue.scalar "2", JsonValue.scalar "1"], List.Perm.swap _ _ _, ?_⟩
      exact List.Forall₂.cons (rfl : ("2" : String) = "2")
        (List.Forall₂.cons (rfl : ("1" : String) = "1") List.Forall₂.nil)
  exact ⟨d, config_dhash_perm_invariant hid c5v c5w d⟩

/-! C8. -/

/-- Characterization of the comparison loop: with distinct inputs the
surviving delete list is the stored entries absent from the new list and the
insert list collects the new entries absent from the stored list. -/
theorem syncLoop_spec : ∀ (P dels ins : List PRec),
    dels.Nodup → P.Nodup → (∀ n ∈ P, n ∉ ins) →
    syncLoop dels ins P =
      some (dels.filter (fun d => decide (d ∉ P)),
            ins ++ P.filter (fun n => decide (n ∉ dels))) := by
  intro P
  induction P with
  | nil =>
      intro dels ins _ _ _
      show some (dels, ins) = _
      rw [List.filter_eq_self.mpr (fun a _ => by simp), List.filter_nil, List.append_nil]
  | cons n rest ih =>
      intro dels ins hdels hP hins
      rcases List.nodup_cons.mp hP with ⟨hn_rest, hrest⟩
      by_cases hmem : n ∈ dels
      · show (if n ∈ dels then syncLoop (dels.erase n) ins rest else _) = _
        rw [if_pos hmem,
          ih (dels.erase n) ins (hdels.erase n) hrest
            (fun m hm => hins m (List.mem_cons_of_mem n hm))]
        have hA : (dels.erase n).filter (fun d => decide (d ∉ rest)) =
            dels.filter (fun d => decide (d ∉ n :: rest)) := by
          rw [hdels.erase_eq_filter n, List.filter_filter]
          apply List.filter_congr
          intro a _
          by_cases h1 : a = n
          · subst h1
            simp [List.mem_cons]
          · by_cases h2 : a ∈ rest <;> simp [List.mem_cons, h1, h2]
        have hB : rest.filter (fun m => decide (m ∉ dels.erase n)) =
            (n :: rest).filter (fun m => decide (m ∉ dels)) := by
          rw [List.filter_cons]
          have hpn : decide (n ∉ dels) = false := by simp [hmem]
          rw [hpn]
          simp only [Bool.false_eq_true, if_false]
          apply List.filter_congr
          intro a ha
          have hne : a ≠ n := fun he => hn_rest (he ▸ ha)
          simp [List.mem_erase_of_ne hne]
        rw [hA, hB]
      · show (if n ∈ dels then _
          else if n ∈ ins then none else syncLoop dels (ins ++ [n]) rest) = _
        rw [if_neg hmem, if_neg (hins n (List.mem_cons_self n rest)),
          ih dels (ins ++ [n]) hdels hrest ?_]
        · have hA : dels.filter (fun d => decide (d ∉ rest)) =
              dels.filter (fun d => decide (d ∉ n :: rest)) := by
            apply List.filter_congr
            intro a ha
            have hne : a ≠ n := fun he => hmem (he ▸ ha)
            simp [List.mem_cons, hne]
          have hB : (ins ++ [n]) ++ rest.filter (fun m => decide (m ∉ dels)) =
              ins ++ (n :: rest).filter (fun m => decide (m ∉ dels)) := by
            rw [List.filter_cons]
            have hpn : decide (n ∉ dels) = true := by simp [hmem]
            rw [hpn]
            simp only [if_true]
            rw [List.append_assoc]
            rfl
          rw [hA, hB]
        · intro m hm
          rw [List.mem_append]
          rintro (hmi | hmn)
          · exact hins m (List.mem_cons_of_mem n hm) hmi
          · exact hn_rest ((List.mem_singleton.mp hmn) ▸ hm)

/-- Folding `Proxy.delete` over a delete list whose (host, port, country)
triples identify rows uniquely removes exactly the listed rows. -/
theorem foldl_proxyDelete (ds : List PRec) : ∀ (stored : List PRec),
    (∀ d ∈ ds, ∀ p ∈ stored, hpc p = hpc d → p = d) →
    ds.foldl proxyDelete stored = stored.filter (fun p => decide (p ∉ ds)) := by
  induction ds with
  | nil =>
      intro stored _
      symm
      apply List.filter_eq_self.mpr
      intro a _
      simp
  | cons d ds ih =>
      intro stored hyp
      show ds.foldl proxyDelete (proxyDelete stored d) = _
      have hdel : proxyDelete stored d = stored.filter (fun p => decide (p ≠ d)) := by
        apply List.filter_congr
        intro a ha
        by_cases he : a = d
        · subst he
          simp
        · have hne : ¬ hpc a = hpc d := fun hc => he (hyp d (List.mem_cons_self d ds) a ha hc)
          simp [hne, he]
      rw [hdel, ih _ ?_]
      · rw [List.filter_filter]
        apply List.filter_congr
        intro a _
        by_cases h1 : a = d
        · subst h1
          simp
        · by_cases h2 : a ∈ ds <;> simp [h1, h2]
      · intro d2 hd2 p hp hpc2
        exact hyp d2 (List.mem_cons_of_mem d hd2) p (List.mem_of_mem_filter hp) hpc2

/-- One `synchronize_proxies` call on distinct inputs whose stored rows are
identified by their (host, port, country) triples: it inserts exactly the new
entries not stored, deletes exactly the stored entries not in the new list,
and the stored table becomes kept-rows plus inserts. -/
theorem synchronize_call (stored P : List PRec) (hS : stored.Nodup) (hP : P.Nodup)
    (hinj : ∀ p ∈ stored, ∀ q ∈ stored, hpc p = hpc q → p = q) :
    synchronize_proxies stored P =
      some (stored.filter (fun p => decide (p ∈ P)) ++
              P.filter (fun n => decide (n ∉ stored)),
            P.filter (fun n => decide (n ∉ stored)),
            stored.filter (fun d => decide (d ∉ P))) := by
  unfold synchronize_proxies
  rw [syncLoop_spec P stored [] hS hP (fun n _ => List.not_mem_nil n)]
  show some ((stored.filter (fun d => decide (d ∉ P))).foldl proxyDelete stored ++
      ([] ++ P.filter (fun n => decide (n ∉ stored))), _, _) = _
  have hfold : (stored.filter (fun d => decide (d ∉ P))).foldl proxyDelete stored =
      stored.filter (fun p => decide (p ∈ P)) := by
    rw [foldl_proxyDelete _ stored ?_]
    · apply List.filter_congr
      intro a ha
      by_cases hp : a ∈ P <;> simp [List.mem_filter, ha, hp]
    · intro d hd p hps hpcEq
      exact hinj p hps d (List.mem_of_mem_filter hd) hpcEq
  rw [hfold, List.nil_append]

/-- C8 (amended): for distinct proxy lists whose (host, port, country)
triples identify entries uniquely across the stored table and the new list,
one call inserts exactly the new entries not stored and deletes exactly the
stored entries not in the list, a second call with the same list returns
empty added and deleted lists, and the resulting stored table equals the new
list as a set.  (Without the triple-uniqueness hypothesis `Proxy.delete`,
which matches host, port and country only, can delete rows that are in the
new list.) -/
theorem synchronize_idempotent (stored P : List PRec) (hS : stored.Nodup) (hP : P.Nodup)
    (hinj : ∀ p ∈ stored ++ P, ∀ q ∈ stored ++ P, hpc p = hpc q → p = q) :
    ∃ stored1,
      synchronize_proxies stored P =
        some (stored1, P.filter (fun n => decide (n ∉ stored)),
              stored.filter (fun d => decide (d ∉ P))) ∧
      synchronize_proxies stored1 P = some (stored1, [], []) ∧
      (∀ x, x ∈ stored1 ↔ x ∈ P) := by
  refine ⟨stored.filter (fun p => decide (p ∈ P)) ++
      P.filter (fun n => decide (n ∉ stored)), ?_, ?_, ?_⟩
  · exact synchronize_call stored P hS hP
      (fun p hp q hq => hinj p (List.mem_append_left P hp) q (List.mem_append_left P hq))
  · have hS1 : (stored.filter (fun p => decide (p ∈ P)) ++
        P.filter (fun n => decide (n ∉ stored))).Nodup := by
      refine (hS.filter _).append (hP.filter _) ?_
      intro a h1 h2
      have ha1 : a ∈ stored := List.mem_of_mem_filter h1
      have ha2 := (List.mem_filter.mp h2).2
      simp only [decide_eq_true_eq] at ha2
      exact ha2 ha1
    have hsub : ∀ x ∈ stored.filter (fun p => decide (p ∈ P)) ++
        P.filter (fun n => decide (n ∉ stored)), x ∈ stored ++ P := by
      intro x hx
      rcases List.mem_append.mp hx with hx1 | hx2
      · exact List.mem_append_left P (List.mem_of_mem_filter hx1)
      · exact List.mem_append_right stored (List.mem_of_mem_filter hx2)
    have hmem : ∀ x, x ∈ stored.filter (fun p => decide (p ∈ P)) ++
        P.filter (fun n => decide (n ∉ stored)) ↔ x ∈ P := by
      intro x
      constructor
      · intro hx
        rcases List.mem_append.mp hx with hx1 | hx2
        · have := (List.mem_filter.mp hx1).2
          simpa using this
        · exact List.mem_of_mem_filter hx2
      · intro hx
        by_cases hst : x ∈ stored
        · exact List.mem_append_left _ (List.mem_filter.mpr ⟨hst, by simpa using hx⟩)
        · exact List.mem_append_right _ (List.mem_filter.mpr ⟨hx, by simpa using hst⟩)
    rw [synchronize_call _ P hS1 hP
      (fun p hp q hq => hinj p (hsub p hp) q (hsub q hq))]
    have h1 : P.filter (fun n => decide (n ∉ stored.filter (fun p => decide (p ∈ P)) ++
        P.filter (fun n => decide (n ∉ stored)))) = [] := by
      apply List.filter_eq_nil_iff.mpr
      intro n hn
      simp only [decide_eq_true_eq, Decidable.not_not]
      exact (hmem n).mpr hn
    have h2 : (stored.filter (fun p => decide (p ∈ P)) ++
        P.filter (fun n => decide (n ∉ stored))).filter (fun d => decide (d ∉ P)) = [] := by
      apply List.filter_eq_nil_iff.mpr
      intro d hd
      simp only [decide_eq_true_eq, Decidable.not_not]
      exact (hmem d).mp hd
    have h3 : (stored.filter (fun p => decide (p ∈ P)) ++
        P.filter (fun n => decide (n ∉ stored))).filter (fun p => decide (p ∈ P)) =
        stored.filter (fun p => decide (p ∈ P)) ++
        P.filter (fun n => decide (n ∉ stored)) := by
      apply List.filter_eq_self.mpr
      intro a ha
      simpa using (hmem a).mp ha
    rw [h1, h2, h3, List.append_nil]
  · intro x
    constructor
    · intro hx
      rcases List.mem_append.mp hx with hx1 | hx2
      · simpa using (List.mem_filter.mp hx1).2
      · exact List.mem_of_mem_filter hx2
    · intro hx
      by_cases hst : x ∈ stored
      · exact List.mem_append_left _ (List.mem_filter.mpr ⟨hst, by simpa using hx⟩)
      · exact List.mem_append_right _ (List.mem_filter.mpr ⟨hx, by simpa using hst⟩)

/-- Counterexample for C8 as stated: with stored rows (h,1,c,u1) and
(h,1,c,u2) and new list [(h,1,c,u2)], the first call's delete of (h,1,c,u1)
also removes (h,1,c,u2) (DELETE matches host, port, country only), so the
second call re-inserts it and returns a non-empty added list. -/
theorem synchronize_counterexample :
    synchronize_proxies [p8a, p8b] [p8b] = some ([], [], [p8a]) ∧
    synchronize_proxies [] [p8b] = some ([p8b], [p8b], []) ∧
    ([p8b] : List PRec) ≠ [] :=
  ⟨rfl, rfl, by decide⟩

/-- Witness for C8's amended theorem at `c8stored` and `c8P`. -/
theorem synchronize_idempotent_witness :
    c8stored.Nodup ∧ c8P.Nodup ∧
    (∀ p ∈ c8stored ++ c8P, ∀ q ∈ c8stored ++ c8P, hpc p = hpc q → p = q) ∧
    (∃ stored1,
      synchronize_proxies c8stored c8P =
        some (stored1, c8P.filter (fun n => decide (n ∉ c8stored)),
              c8stored.filter (fun d => decide (d ∉ c8P))) ∧
      synchronize_proxies stored1 c8P = some (stored1, [], []) ∧
      (∀ x, x ∈ stored1 ↔ x ∈ c8P)) :=
  ⟨by decide, by decide, by decide,
   synchronize_idempotent c8stored c8P (by decide) (by decide) (by decide)⟩

/-! C9. -/

/-- Unfolding of one step of the bot-creation loop. -/
theorem createBotsLoop_cons (now : Int) (tid : Nat) (fam : String) (tracked : List String)
    (wl : Option (List String)) (db0 : DB) (acc : List Nat) (c : String) (cs : List String) :
    createBotsLoop now tid fam tracked wl db0 acc (c :: cs) =
      (if c ∈ tracked then createBotsLoop now tid fam tracked wl db0 acc cs
       else if (match wl with | some w => decide (c ∉ w) | none => false) then
         createBotsLoop now tid fam tracked wl db0 acc cs
       else
         createBotsLoop now tid fam tracked wl (Bot.create db0 now tid c fam).1
           (acc ++ [(Bot.create db0 now tid c fam).2]) cs) := rfl

/-- The bot-creation loop appends rows for exactly the untracked,
whitelist-allowed countries, and touches no other table. -/
theorem createBotsLoop_spec (now : Int) (tid : Nat) (fam : String) (tracked : List String)
    (wl : Option (List String)) :
    ∀ (countries : List String) (db0 : DB) (acc : List Nat),
      ∃ newRows : List BotRow,
        (createBotsLoop now tid fam tracked wl db0 acc countries).1.bots =
          db0.bots ++ newRows ∧
        (createBotsLoop now tid fam tracked wl db0 acc countries).1.trackers =
          db0.trackers ∧
        (createBotsLoop now tid fam tracked wl db0 acc countries).1.proxies =
          db0.proxies ∧
        (∀ r ∈ newRows, r.tracker_id = tid ∧ r.country ∈ countries ∧ r.country ∉ tracked ∧
          (∀ w, wl = some w → r.country ∈ w)) ∧
        (∀ c ∈ countries, (∀ w, wl = some w → c ∈ w) → c ∉ tracked →
          c ∈ newRows.map (fun r => r.country)) := by
  intro countries
  induction countries with
  | nil =>
      intro db0 acc
      exact ⟨[], (List.append_nil db0.bots).symm, rfl, rfl,
        fun r hr => absurd hr (List.not_mem_nil r),
        fun c hc _ _ => absurd hc (List.not_mem_nil c)⟩
  | cons c cs ih =>
      intro db0 acc
      rw [createBotsLoop_cons]
      by_cases ht : c ∈ tracked
      · rw [if_pos ht]
        obtain ⟨nr, h1, h2, h3, h4, h5⟩ := ih db0 acc
        refine ⟨nr, h1, h2, h3, ?_, ?_⟩
        · intro r hr
          obtain ⟨ha, hb, hc2, hd⟩ := h4 r hr
          exact ⟨ha, List.mem_cons_of_mem c hb, hc2, hd⟩
        · intro c2 hc2 hwl hnt
          rcases List.mem_cons.mp hc2 with rfl | hcs
          · exact absurd ht hnt
          · exact h5 c2 hcs hwl hnt
      · rw [if_neg ht]
        cases wl with
        | none =>
            rw [if_neg (by simp)]
            obtain ⟨nr, h1, h2, h3, h4, h5⟩ :=
              ih (Bot.create db0 now tid c fam).1 (acc ++ [(Bot.create db0 now tid c fam).2])
            refine ⟨⟨freshBotId db0, tid, STATUS_DB Status.new, "\x7b\x7d", 0, now, c, "",
              fam⟩ :: nr, ?_, h2, h3, ?_, ?_⟩
            · rw [h1]
              show (db0.bots ++ [_]) ++ nr = _
              rw [List.append_assoc]
              rfl
            · intro r hr
              rcases List.mem_cons.mp hr with rfl | hrn
              · exact ⟨rfl, List.mem_cons_self c cs, ht, fun w hw => by cases hw⟩
              · obtain ⟨ha, hb, hc2, hd⟩ := h4 r hrn
                exact ⟨ha, List.mem_cons_of_mem c hb, hc2, hd⟩
            · intro c2 hc2 hwl hnt
              rcases List.mem_cons.mp hc2 with rfl | hcs
              · exact List.mem_cons_self c2 _
              · exact List.mem_cons_of_mem _ (h5 c2 hcs hwl hnt)
        | some w =>
            by_cases hcw : c ∈ w
            · rw [if_neg (by simpa using hcw)]
              obtain ⟨nr, h1, h2, h3, h4, h5⟩ :=
                ih (Bot.create db0 now tid c fam).1 (acc ++ [(Bot.create db0 now tid c fam).2])
              refine ⟨⟨freshBotId db0, tid, STATUS_DB Status.new, "\x7b\x7d", 0, now, c, "",
                fam⟩ :: nr, ?_, h2, h3, ?_, ?_⟩
              · rw [h1]
                show (db0.bots ++ [_]) ++ nr = _
                rw [List.append_assoc]
                rfl
              · intro r hr
                rcases List.mem_cons.mp hr with rfl | hrn
                · refine ⟨rfl, List.mem_cons_self c cs, ht, ?_⟩
                  intro w2 hw2
                  cases hw2
                  exact hcw
                · obtain ⟨ha, hb, hc2, hd⟩ := h4 r hrn
                  exact ⟨ha, List.mem_cons_of_mem c hb, hc2, hd⟩
              · intro c2 hc2 hwl hnt
                rcases List.mem_cons.mp hc2 with rfl | hcs
                · exact List.mem_cons_self c2 _
                · exact List.mem_cons_of_mem _ (h5 c2 hcs hwl hnt)
            · rw [if_pos (by simpa using hcw)]
              obtain ⟨nr, h1, h2, h3, h4, h5⟩ := ih db0 acc
              refine ⟨nr, h1, h2, h3, ?_, ?_⟩
              · intro r hr
                obtain ⟨ha, hb, hc2, hd⟩ := h4 r hr
                exact ⟨ha, List.mem_cons_of_mem c hb, hc2, hd⟩
              · intro c2 hc2 hwl hnt
                rcases List.mem_cons.mp hc2 with rfl | hcs
                · exact absurd (hwl w rfl) hcw
                · exact h5 c2 hcs hwl hnt

/-- When every whitelist-allowed country is already tracked, the
bot-creation loop does nothing. -/
theorem createBotsLoop_noop (now : Int) (tid : Nat) (fam : String) (tracked : List String)
    (wl : Option (List String)) :
    ∀ (countries : List String) (db0 : DB) (acc : List Nat),
      (∀ c ∈ countries, (∀ w, wl = some w → c ∈ w) → c ∈ tracked) →
      createBotsLoop now tid fam tracked wl db0 acc countries = (db0, acc) := by
  intro countries
  induction countries with
  | nil => intro db0 acc _; rfl
  | cons c cs ih =>
      intro db0 acc hyp
      rw [createBotsLoop_cons]
      by_cases ht : c ∈ tracked
      · rw [if_pos ht]
        exact ih db0 acc (fun c2 h2 => hyp c2 (List.mem_cons_of_mem c h2))
      · rw [if_neg ht]
        cases wl with
        | none =>
            exact absurd (hyp c (List.mem_cons_self c cs) (fun w hw => by cases hw)) ht
        | some w =>
            by_cases hcw : c ∈ w
            · exact absurd (hyp c (List.mem_cons_self c cs)
                (fun w2 hw2 => by cases hw2; exact hcw)) ht
            · rw [if_pos (by simpa using hcw)]
              exact ih db0 acc (fun c2 h2 => hyp c2 (List.mem_cons_of_mem c h2))

/-- A `track_config` call whose tracker is found, whose bot rows fit the
100-row read limit, and whose whitelist-allowed pool countries are all
covered, changes nothing. -/
theorem track_config_noop (mods : List (String × TrackerModuleT)) (h : String → String)
    (now2 : Int) (db1 : DB) (family : String) (config : JsonValue)
    (fm : String × TrackerModuleT) (tr : TrackerRow)
    (hreg : mods.find? (fun m => m.1 == family) = some fm)
    (hfind : db1.trackers.find? (fun t => t.config_hash == config_dhash h config) = some tr)
    (h100 : (db1.bots.filter (fun b => b.tracker_id == tr.tracker_id)).length ≤ 100)
    (hcov : ∀ c ∈ proxyCountryKeys db1.proxies,
      (∀ w, fm.2.proxy_whitelist = some w → c ∈ w) →
      c ∈ (db1.bots.filter (fun b => b.tracker_id == tr.tracker_id)).map
        (fun b => b.country)) :
    track_config mods h now2 db1 family config =
      (db1, .ok ⟨false, tr.tracker_id,
        (db1.bots.filter (fun b => b.tracker_id == tr.tracker_id)).map
          (fun b => b.bot_id)⟩) := by
  simp only [track_config, hreg, hfind]
  rw [List.take_of_length_le h100]
  rw [createBotsLoop_noop now2 tr.tracker_id family _ fm.2.proxy_whitelist
    (proxyCountryKeys db1.proxies) db1 [] hcov]
  rw [List.append_nil]

/-- C9 (amended): re-submitting the same (family, config) yields the same
tracker id, and — provided the tracker's bot rows fit the reporter's 100-row
read limit — the second submission changes nothing at all; every bot the
first submission created is for a proxy-pool country allowed by the module's
whitelist and belongs to the returned tracker. -/
theorem track_config_idempotent (mods : List (String × TrackerModuleT)) (h : String → String)
    (now now2 : Int) (db : DB) (family : String) (config : JsonValue)
    (fm : String × TrackerModuleT)
    (hreg : mods.find? (fun m => m.1 == family) = some fm)
    (db1 db2 : DB) (r1 r2 : TrackResp)
    (hc1 : track_config mods h now db family config = (db1, .ok r1))
    (hc2 : track_config mods h now2 db1 family config = (db2, .ok r2))
    (h100 : (db1.bots.filter (fun b => b.tracker_id == r1.tracker_id)).length ≤ 100) :
    r2.tracker_id = r1.tracker_id ∧ db2 = db1 ∧
    (∀ b ∈ db1.bots, b ∉ db.bots →
      b.country ∈ proxyCountryKeys db.proxies ∧
      (∀ w, fm.2.proxy_whitelist = some w → b.country ∈ w) ∧
      b.tracker_id = r1.tracker_id) := by
  simp only [track_config, hreg] at hc1
  cases hft : db.trackers.find? (fun t => t.config_hash == config_dhash h config) with
  | some tr =>
      rw [hft] at hc1
      simp only [] at hc1
      injection hc1 with hdb1 hrsp
      injection hrsp with hr1
      subst hdb1
      subst hr1
      obtain ⟨nr, hbots1, htr1, hpx1, hrows, hcover⟩ :=
        createBotsLoop_spec now tr.tracker_id family
          (((db.bots.filter (fun b => b.tracker_id == tr.tracker_id)).take 100).map
            (fun b => b.country))
          fm.2.proxy_whitelist (proxyCountryKeys db.proxies) db []
      have h100x : (((createBotsLoop now tr.tracker_id family
          (((db.bots.filter (fun b => b.tracker_id == tr.tracker_id)).take 100).map
            (fun b => b.country))
          fm.2.proxy_whitelist db []
          (proxyCountryKeys db.proxies)).1.bots.filter
            (fun b => b.tracker_id == tr.tracker_id)).length) ≤ 100 := h100
      have hcov2 : ∀ c ∈ proxyCountryKeys ((createBotsLoop now tr.tracker_id family
          (((db.bots.filter (fun b => b.tracker_id == tr.tracker_id)).take 100).map
            (fun b => b.country))
          fm.2.proxy_whitelist db [] (proxyCountryKeys db.proxies)).1.proxies),
          (∀ w, fm.2.proxy_whitelist = some w → c ∈ w) →
          c ∈ ((createBotsLoop now tr.tracker_id family
            (((db.bots.filter (fun b => b.tracker_id == tr.tracker_id)).take 100).map
              (fun b => b.country))
            fm.2.proxy_whitelist db [] (proxyCountryKeys db.proxies)).1.bots.filter
              (fun b => b.tracker_id == tr.tracker_id)).map (fun b => b.country) := by
        rw [hpx1]
        intro c hc hwl
        by_cases htrk : c ∈ ((db.bots.filter
            (fun b => b.tracker_id == tr.tracker_id)).take 100).map (fun b => b.country)
        · obtain ⟨x, hx, hxc⟩ := List.mem_map.mp htrk
          have hx1 : x ∈ db.bots.filter (fun b => b.tracker_id == tr.tracker_id) :=
            List.mem_of_mem_take hx
          apply List.mem_map.mpr
          refine ⟨x, List.mem_filter.mpr ⟨?_, (List.mem_filter.mp hx1).2⟩, hxc⟩
          rw [hbots1]
          exact List.mem_append_left _ (List.mem_of_mem_filter hx1)
        · obtain ⟨r, hrn, hrc⟩ := List.mem_map.mp (hcover c hc hwl htrk)
          obtain ⟨hrtid, _, _, _⟩ := hrows r hrn
          apply List.mem_map.mpr
          refine ⟨r, List.mem_filter.mpr ⟨?_, by simp [hrtid]⟩, hrc⟩
          rw [hbots1]
          exact List.mem_append_right _ hrn
      have hfind2 : ((createBotsLoop now tr.tracker_id family
          (((db.bots.filter (fun b => b.tracker_id == tr.tracker_id)).take 100).map
            (fun b => b.country))
          fm.2.proxy_whitelist db [] (proxyCountryKeys db.proxies)).1.trackers.find?
            (fun t => t.config_hash == config_dhash h config)) = some tr := by
        rw [htr1]
        exact hft
      rw [track_config_noop mods h now2 _ family config fm tr hreg hfind2 h100x hcov2] at hc2
      injection hc2 with hdb2 hrsp2
      injection hrsp2 with hr2
      refine ⟨by rw [← hr2], hdb2.symm, ?_⟩
      intro b hb hbnew
      rw [hbots1] at hb
      rcases List.mem_append.mp hb with hbl | hbr
      · exact absurd hbl hbnew
      · obtain ⟨hrtid, hrc, _, hrwl⟩ := hrows b hbr
        exact ⟨hrc, hrwl, hrtid⟩
  | none =>
      rw [hft] at hc1
      simp only [] at hc1
      injection hc1 with hdb1 hrsp
      injection hrsp with hr1
      subst hdb1
      subst hr1
      obtain ⟨nr, hbots1, htr1, hpx1, hrows, hcover⟩ :=
        createBotsLoop_spec now (freshTrackerId db) family []
          fm.2.proxy_whitelist
          (proxyCountryKeys ({ db with trackers := db.trackers ++
            [⟨freshTrackerId db, config_dhash h config, config, family, none⟩] } : DB).proxies)
          ({ db with trackers := db.trackers ++
            [⟨freshTrackerId db, config_dhash h config, config, family, none⟩] } : DB) []
      have hfind2 : ((createBotsLoop now (freshTrackerId db) family []
          fm.2.proxy_whitelist
          ({ db with trackers := db.trackers ++
            [⟨freshTrackerId db, config_dhash h config, config, family, none⟩] } : DB) []
          (proxyCountryKeys ({ db with trackers := db.trackers ++
            [⟨freshTrackerId db, config_dhash h config, config, family,
              none⟩] } : DB).proxies)).1.trackers.find?
            (fun t => t.config_hash == config_dhash h config)) =
          some ⟨freshTrackerId db, config_dhash h config, config, family, none⟩ := by
        rw [htr1]
        show ((db.trackers ++ ([⟨freshTrackerId db, config_dhash h config, config, family,
          none⟩] : List TrackerRow)).find?
            (fun t => t.config_hash == config_dhash h config)) = _
        rw [List.find?_append, hft]
        simp
      have h100x : (((createBotsLoop now (freshTrackerId db) family []
          fm.2.proxy_whitelist
          ({ db with trackers := db.trackers ++
            [⟨freshTrackerId db, config_dhash h config, config, family, none⟩] } : DB) []
          (proxyCountryKeys ({ db with trackers := db.trackers ++
            [⟨freshTrackerId db, config_dhash h config, config, family,
              none⟩] } : DB).proxies)).1.bots.filter
            (fun b => b.tracker_id == freshTrackerId db)).length) ≤ 100 := h100
      have hcov2 : ∀ c ∈ proxyCountryKeys ((createBotsLoop now (freshTrackerId db) family []
          fm.2.proxy_whitelist
          ({ db with trackers := db.trackers ++
            [⟨freshTrackerId db, config_dhash h config, config, family, none⟩] } : DB) []
          (proxyCountryKeys ({ db with trackers := db.trackers ++
            [⟨freshTrackerId db, config_dhash h config, config, family,
              none⟩] } : DB).proxies)).1.proxies),
          (∀ w, fm.2.proxy_whitelist = some w → c ∈ w) →
          c ∈ ((createBotsLoop now (freshTrackerId db) family []
            fm.2.proxy_whitelist
            ({ db with trackers := db.trackers ++
              [⟨freshTrackerId db, config_dhash h config, config, family, none⟩] } : DB) []
            (proxyCountryKeys ({ db with trackers := db.trackers ++
              [⟨freshTrackerId db, config_dhash h config, config, family,
                none⟩] } : DB).proxies)).1.bots.filter
              (fun b => b.tracker_id == freshTrackerId db)).map (fun b => b.country) := by
        rw [hpx1]
        intro c hc hwl
        obtain ⟨r, hrn, hrc⟩ := List.mem_map.mp
          (hcover c hc hwl (List.not_mem_nil c))
        obtain ⟨hrtid, _, _, _⟩ := hrows r hrn
        apply List.mem_map.mpr
        refine ⟨r, List.mem_filter.mpr ⟨?_, by simp [hrtid]⟩, hrc⟩
        rw [hbots1]
        exact List.mem_append_right _ hrn
      rw [track_config_noop mods h now2 _ family config fm
        ⟨freshTrackerId db, config_dhash h config, config, family, none⟩
        hreg hfind2 h100x hcov2] at hc2
      injection hc2 with hdb2 hrsp2
      injection hrsp2 with hr2
      refine ⟨by rw [← hr2], hdb2.symm, ?_⟩
      intro b hb hbnew
      rw [hbots1] at hb
      rcases List.mem_append.mp hb with hbl | hbr
      · exact absurd hbl hbnew
      · obtain ⟨hrtid, hrc, _, hrwl⟩ := hrows b hbr
        exact ⟨hrc, hrwl, hrtid⟩

set_option maxRecDepth 100000 in
/-- C9 counterexample: over a proxy pool with 101 countries the first ingest
creates 101 bots, and the second identical ingest creates a 102nd — the
reporter-default LIMIT 100 read misses one tracked country, so re-submitting
the same config is not free of new bots. -/
theorem track_config_counterexample :
    c9call1.1.bots.length = 101 ∧ c9call2.1.bots.length = 102 := by
  constructor <;> rfl

/-- C9 witness: the amended idempotence law at a one-proxy database. -/
theorem track_config_idempotent_witness :
    track_config c9mods hid 0 c9smallDb "fam" (.obj []) = (c9sdb1, .ok c9r1v) ∧
    track_config c9mods hid 7 c9sdb1 "fam" (.obj []) = (c9sdb1, .ok c9r2v) ∧
    c9r2v.tracker_id = c9r1v.tracker_id := by
  have h := track_config_idempotent c9mods hid 0 7 c9smallDb "fam" (.obj [])
    ("fam", ⟨[], none⟩) rfl c9sdb1 c9sdb1 c9r1v c9r2v rfl rfl (by decide)
  exact ⟨rfl, rfl, h.1⟩

end MT
